import Mathlib

/-!
Shallow embedding of `smartInstructionSender.ts` from safecoin-web3-tools
(`SmartInstructionSender.send`, `signAndRebuildTransactionsFromInstructionSets`)
together with the helper `getSlotAndCurrentBlockHash`
(`Promise.all([connection.getSlot, connection.getLatestBlockhash])`).

External collaborators (the network connection and the wallet) are modelled as
oracles: three streams indexed by a per-stream call counter give the result of
the k-th `getSlotAndCurrentBlockHash` call, the k-th bare `connection.getSlot`
call, and the k-th `sendSignedTransaction` call.  The wallet's
`signAllTransactions` is modelled as attaching the wallet authorization to each
transaction of the slice it is handed (in place, as wallet adapters do; the
initial signing path uses the returned array, which coincides).

Every collaborator call and every optional-callback invocation is recorded, in
program order, in an event trace carried by the engine state.  The
safe-navigation guards (`?.`) on the callbacks only suppress the physical call
when no callback is registered; the trace records the invocation points
themselves, which is what the claims quantify over.
-/

namespace SafecoinSender

/-- An operation (a `TransactionInstruction`), abstracted to an identifier. -/
structure Instr where
  id : Nat
deriving DecidableEq, Repr

/-- A per-group authorizer (a `Signer`), abstracted to an identifier. -/
structure Signer where
  id : Nat
deriving DecidableEq, Repr

/-- `InstructionSet` from `types.ts`: per-group signers plus the ordered
operation list. -/
structure InstructionSet where
  signers : List Signer
  instructions : List Instr
deriving DecidableEq, Repr

/-- The part of a `@solana/web3.js` `Transaction` the engine manipulates:
fee payer, recency anchor (`recentBlockhash`, as an abstract token), the ordered
operations added by `.add(...)`, the per-group signers attached via the
per-group signing step, and whether the wallet has authorized it via
`signAllTransactions`. -/
structure Transaction where
  feePayer : Nat
  recentBlockhash : Nat
  instructions : List Instr
  addedSigners : List Signer
  walletSigned : Bool
deriving DecidableEq, Repr

/-- Result of one `sendSignedTransaction` call: either accepted together with
the slot reported at acceptance (`result.slot`), or an error carrying the
`result.err.type` string (`"timeout"`, `"misc-error"`, or other). -/
inductive TxResult where
  | accepted (slot : Nat)
  | failed (errType : String)
deriving DecidableEq, Repr

/-- The errors the per-index retry block can reject with: the
`MAX_RESIGN_ATTEMPTS_REACHED` error created by the engine, or the submission
error object itself (carrying its `type`) passed to `bail`. -/
inductive SenderError where
  | maxResignAttemptsReached
  | txErr (errType : String)
deriving DecidableEq, Repr

/-- Observable events of a run, in program order: collaborator calls
(`fetchAnchor` = `getSlotAndCurrentBlockHash`, `slotQuery` = bare
`connection.getSlot`, `signBatch` = `wallet.signAllTransactions`,
`submitTx` = `sendSignedTransaction` with its classified result) and
callback invocation points (`progressCb`, `reSignCb`, `failureCb` with the
argument values the engine passes at the call site). -/
inductive Event where
  | fetchAnchor (slot : Nat) (blockhash : Nat)
  | slotQuery (slot : Nat)
  | signBatch (txs : List Transaction)
  | submitTx (index : Nat) (tx : Transaction) (result : TxResult)
  | progressCb (index : Nat)
  | reSignCb (attempt : Nat) (index : Nat)
  | failureCb (e : SenderError) (index : Nat) (successCount : Nat)
      (grp : Option InstructionSet)
deriving DecidableEq, Repr

/-- The oracle environment supplying collaborator results: `fetches k` is the
(slot, blockhash) pair returned by the k-th `getSlotAndCurrentBlockHash` call,
`slotQueries k` the k-th bare `connection.getSlot` result, and `submits k` the
k-th `sendSignedTransaction` result. -/
structure Env where
  fetches : Nat → Nat × Nat
  slotQueries : Nat → Nat
  submits : Nat → TxResult

/-- `SmartInstructionSenderConfiguration` (commitment is connection plumbing and
not modelled). -/
structure Config where
  maxSigningAttempts : Nat
  abortOnFailure : Bool
deriving DecidableEq, Repr

/-- Mutable state of a `send` run: the signed transaction array, the baseline
slot and current blockhash variables, the `successfulItems` counter, the three
oracle call counters, and the accumulated event trace. -/
structure SendState where
  signedTXs : List Transaction
  slot : Nat
  blockhash : Nat
  successfulItems : Nat
  fetchCount : Nat
  slotQueryCount : Nat
  submitCount : Nat
  trace : List Event
deriving DecidableEq, Repr

/-- Placeholder transaction used as the default of `List.getD` when reading
the signed-transaction array (JS would yield `undefined`; all reads proved
about are in range). -/
def dummyTx : Transaction :=
  { feePayer := 0, recentBlockhash := 0, instructions := [],
    addedSigners := [], walletSigned := false }

/-- JavaScript array indexing with a possibly negative index:
`arr[k]` is `undefined` (here `none`) for `k < 0` or `k ≥ arr.length`. -/
def jsIndex (l : List α) (k : Int) : Option α :=
  if k < 0 then none else l.get? k.toNat

/-- Mirrors `new Transaction({feePayer, recentBlockhash}).add(...instructions)`
followed by the per-group signing call when the signer list is non-empty
(lines 94-99 of the rebuild loop and lines 120-124 of the initial build). -/
def buildTx (feePayer : Nat) (blockhash : Nat) (s : InstructionSet) : Transaction :=
  { feePayer := feePayer
    recentBlockhash := blockhash
    instructions := s.instructions
    addedSigners := if s.signers.isEmpty then [] else s.signers
    walletSigned := false }

/-- Wallet authorization of one transaction (the effect of
`wallet.signAllTransactions` on each element it is handed). -/
def walletSign (t : Transaction) : Transaction :=
  { t with walletSigned := true }

/-- JavaScript array element assignment `arr[j] = t`.  In the rebuild loop the
writes are contiguous from the start index, so the only out-of-range case that
occurs is `j = arr.length`, which appends. -/
def setAt (l : List Transaction) (j : Nat) (t : Transaction) : List Transaction :=
  if j < l.length then l.set j t else l ++ [t]

/-- The `for (let j = index; j < this.instructionSets!.length; j++)` loop of
`signAndRebuildTransactionsFromInstructionSets` (lines 92-100): rebuilds
`signedTXs[j]` from `instructionSets[j]` (the unfiltered list) against the new
blockhash.  `steps` counts the remaining iterations, so the loop is called
with `steps = sets.length - j`. -/
def rebuildLoop (pk : Nat) (sets : List InstructionSet) (bh : Nat) :
    List Transaction → Nat → Nat → List Transaction
  | txs, _, 0 => txs
  | txs, j, steps + 1 =>
      rebuildLoop pk sets bh
        (setAt txs j (buildTx pk bh (sets.getD j ⟨[], []⟩))) (j + 1) steps

/-- `signAndRebuildTransactionsFromInstructionSets` minus its callback and
return-value plumbing: run the rebuild loop from `index`, then wallet-sign the
suffix `signedTXs.slice(index)` via `signAllTransactions`. -/
def rebuildAndSign (pk : Nat) (sets : List InstructionSet)
    (txs : List Transaction) (index : Nat) (bh : Nat) : List Transaction :=
  (rebuildLoop pk sets bh txs index (sets.length - index)).take index ++
    ((rebuildLoop pk sets bh txs index (sets.length - index)).drop index).map walletSign

/-- Outcome of one run of the `async-retry` callback body: either the retry
promise settles (`done`, resolved on `none`, rejected via `bail` or
exhaustion on `some e`), or the body threw a timeout error and — after the
`onRetry` handler ran — the loop retries (`again`) with the attempt counter
and the (possibly re-signed) current transaction. -/
inductive StepResult where
  | done (st : SendState) (err : Option SenderError)
  | again (st : SendState) (rn : Nat) (tx : Transaction)
deriving Repr

/-- One attempt for index `i` (the retry callback body, lines 136-186, plus
the `onRetry` handler, lines 189-210, when the body throws):
increment `retryNumber`, wait the fixed delay, submit `tx`;
on `result.err` of type `"timeout"` with `retryNumber >= maxSigningAttempts`
bail with `MAX_RESIGN_ATTEMPTS_REACHED`; on `"timeout"` below the bound throw,
whereupon `onRetry` re-reads the slot and, on drift of 150 or more past the
baseline, re-fetches (slot, blockhash), rebuilds and re-signs the suffix from
`i`, and replaces the current transaction; on any other error type bail with
the error itself.  On acceptance fire the progress callback, increment
`successfulItems`, and on drift of the acceptance slot 150 or more past the
baseline with a non-empty remaining suffix, re-fetch and rebuild the suffix
from `i + 1`. -/
def attemptOnce (cfg : Config) (env : Env) (pk : Nat)
    (sets : List InstructionSet) (i : Nat) (retryNumber : Nat)
    (tx : Transaction) (st : SendState) : StepResult :=
  let rn := retryNumber + 1
  let result := env.submits st.submitCount
  let st1 : SendState :=
    { st with submitCount := st.submitCount + 1
              trace := st.trace ++ [Event.submitTx i tx result] }
  match result with
  | TxResult.accepted c =>
      let st2 := { st1 with trace := st1.trace ++ [Event.progressCb i]
                            successfulItems := st1.successfulItems + 1 }
      if st2.slot + 150 ≤ c then
        if i + 1 < st2.signedTXs.length then
          let p := env.fetches st2.fetchCount
          let st3 := { st2 with fetchCount := st2.fetchCount + 1
                                slot := p.1
                                blockhash := p.2
                                trace := st2.trace ++ [Event.fetchAnchor p.1 p.2] }
          let newTXs := rebuildAndSign pk sets st3.signedTXs (i + 1) p.2
          let st4 := { st3 with signedTXs := newTXs
                                trace := st3.trace ++
                                  [Event.reSignCb 0 (i + 1),
                                   Event.signBatch (newTXs.drop (i + 1))] }
          StepResult.done st4 none
        else StepResult.done st2 none
      else StepResult.done st2 none
  | TxResult.failed t =>
      if t = "timeout" ∧ cfg.maxSigningAttempts ≤ rn then
        StepResult.done st1 (some SenderError.maxResignAttemptsReached)
      else if t = "timeout" then
        let s := env.slotQueries st1.slotQueryCount
        let st2 := { st1 with slotQueryCount := st1.slotQueryCount + 1
                              trace := st1.trace ++ [Event.slotQuery s] }
        if st2.slot + 150 ≤ s then
          let p := env.fetches st2.fetchCount
          let st3 := { st2 with fetchCount := st2.fetchCount + 1
                                slot := p.1
                                blockhash := p.2
                                trace := st2.trace ++ [Event.fetchAnchor p.1 p.2] }
          let newTXs := rebuildAndSign pk sets st3.signedTXs i p.2
          let st4 := { st3 with signedTXs := newTXs
                                trace := st3.trace ++
                                  [Event.reSignCb rn i,
                                   Event.signBatch (newTXs.drop i)] }
          StepResult.again st4 rn ((newTXs.drop i).headD tx)
        else StepResult.again st2 rn tx
      else StepResult.done st1 (some (SenderError.txErr t))

/-- The bounded retry loop `retry(fn, {retries, onRetry})` for index `i`.
`fuel` bounds the number of retries still allowed; the engine enters with
`fuel = maxSigningAttempts` and the timeout branch bails once
`retryNumber ≥ maxSigningAttempts`, so a throw always has fuel left and the
fuel-0 fallback (library retry exhaustion, rejecting with the thrown timeout
error) is unreachable from `processIndex`. -/
def attemptLoop (cfg : Config) (env : Env) (pk : Nat)
    (sets : List InstructionSet) (i : Nat) :
    Nat → Nat → Transaction → SendState → SendState × Option SenderError
  | 0, rn, tx, st =>
      match attemptOnce cfg env pk sets i rn tx st with
      | StepResult.done st1 e => (st1, e)
      | StepResult.again st1 _ _ => (st1, some (SenderError.txErr "timeout"))
  | fuel + 1, rn, tx, st =>
      match attemptOnce cfg env pk sets i rn tx st with
      | StepResult.done st1 e => (st1, e)
      | StepResult.again st1 rn1 tx1 => attemptLoop cfg env pk sets i fuel rn1 tx1 st1

/-- The body of one iteration of the outer `for` loop (lines 131-223):
`let tx = signedTXs[i]`, the retry call, and the `catch` block, which fires
the failure callback with `(error, i, successfulItems,
instructionSets[successfulItems - 1])` and reports the error to the loop. -/
def processIndex (cfg : Config) (env : Env) (pk : Nat)
    (sets : List InstructionSet) (i : Nat) (st : SendState) :
    SendState × Option SenderError :=
  match attemptLoop cfg env pk sets i cfg.maxSigningAttempts 0
      (st.signedTXs.getD i dummyTx) st with
  | (st1, none) => (st1, none)
  | (st1, some e) =>
      ({ st1 with trace := st1.trace ++
          [Event.failureCb e i st1.successfulItems
            (jsIndex sets ((st1.successfulItems : Int) - 1))] },
       some e)

/-- The outer `for (let i = 0; i < signedTXs.length; i++)` loop: run
`processIndex`; on a caught error, `break` when `abortOnFailure` is set,
otherwise continue with the next index.  `fuel` bounds the iterations; since
`signedTXs.length` never exceeds `instructionSets.length`, entering with
`fuel = instructionSets.length` never cuts the loop short. -/
def sendLoop (cfg : Config) (env : Env) (pk : Nat)
    (sets : List InstructionSet) : Nat → Nat → SendState → SendState
  | 0, _, st => st
  | fuel + 1, i, st =>
      if i < st.signedTXs.length then
        match processIndex cfg env pk sets i st with
        | (st1, none) => sendLoop cfg env pk sets fuel (i + 1) st1
        | (st1, some _) =>
            if cfg.abortOnFailure then st1
            else sendLoop cfg env pk sets fuel (i + 1) st1
      else st

/-- Result of `send()`: the `WalletNotConnectedError` throw, the
`No instruction sets provided` throw, or normal completion carrying the final
engine state (per-index errors are caught inside the loop and never escape). -/
inductive SendOutcome where
  | walletNotConnected
  | noInstructionSets
  | completed (final : SendState)
deriving DecidableEq, Repr

/-- `SmartInstructionSender.send` (lines 107-225): precondition checks
(`wallet?.publicKey` present, `instructionSets?.length` non-zero), initial
`getSlotAndCurrentBlockHash` fetch, build of the transactions of the groups
with a non-empty operation list against the fetched blockhash, initial
whole-batch `signAllTransactions`, then the per-index loop. -/
def send (walletKey : Option Nat) (sets : List InstructionSet)
    (cfg : Config) (env : Env) : SendOutcome :=
  match walletKey with
  | none => SendOutcome.walletNotConnected
  | some pk =>
      if sets.isEmpty then SendOutcome.noInstructionSets
      else
        let p := env.fetches 0
        let unsigned := (sets.filter fun s => ¬ s.instructions.isEmpty).map
          (buildTx pk p.2)
        let signed := unsigned.map walletSign
        let st0 : SendState :=
          { signedTXs := signed, slot := p.1, blockhash := p.2,
            successfulItems := 0, fetchCount := 1, slotQueryCount := 0,
            submitCount := 0,
            trace := [Event.fetchAnchor p.1 p.2, Event.signBatch signed] }
        SendOutcome.completed (sendLoop cfg env pk sets sets.length 0 st0)

/-- The progress-callback events of a trace. -/
def progressEvents (tr : List Event) : List Event :=
  tr.filter fun e =>
    match e with
    | Event.progressCb _ => true
    | _ => false

/-- The submission events of a trace. -/
def submitEvents (tr : List Event) : List Event :=
  tr.filter fun e =>
    match e with
    | Event.submitTx _ _ _ => true
    | _ => false

/-- Whether an event is a failure-callback invocation. -/
def isFailureEvent : Event → Bool
  | Event.failureCb _ _ _ _ => true
  | _ => false

/-- The state carried by a `StepResult`. -/
def stepState : StepResult → SendState
  | StepResult.done st _ => st
  | StepResult.again st _ _ => st

/-- Conclusion of the re-anchor-on-accepted-drift property: when the
submission of index `i` is accepted at a slot that has drifted 150 or more
past the baseline and a later index exists, `processIndex` succeeds having
fetched one fresh (slot, blockhash) pair, updated the baseline to it, and
rebuilt and re-signed the whole suffix from `i + 1` (all in that order, as the
trace extension records); every transaction at an index above `i` now carries
the fresh blockhash and a wallet signature, and the next submission attempt,
the first of `processIndex` at `i + 1`, submits the rebuilt transaction. -/
def ReanchorsAfterAcceptDrift (cfg : Config) (env : Env) (pk : Nat)
    (sets : List InstructionSet) (i : Nat) (st : SendState) (c : Nat) : Prop :=
  processIndex cfg env pk sets i st =
    ({ st with
        signedTXs := rebuildAndSign pk sets st.signedTXs (i + 1)
          (env.fetches st.fetchCount).2
        slot := (env.fetches st.fetchCount).1
        blockhash := (env.fetches st.fetchCount).2
        successfulItems := st.successfulItems + 1
        fetchCount := st.fetchCount + 1
        submitCount := st.submitCount + 1
        trace := st.trace ++
          [Event.submitTx i (st.signedTXs.getD i dummyTx) (TxResult.accepted c),
           Event.progressCb i,
           Event.fetchAnchor (env.fetches st.fetchCount).1
             (env.fetches st.fetchCount).2,
           Event.reSignCb 0 (i + 1),
           Event.signBatch ((rebuildAndSign pk sets st.signedTXs (i + 1)
             (env.fetches st.fetchCount).2).drop (i + 1))] },
     none) ∧
  (∀ j, i + 1 ≤ j → j < sets.length →
    ((rebuildAndSign pk sets st.signedTXs (i + 1)
        (env.fetches st.fetchCount).2).getD j dummyTx).recentBlockhash =
      (env.fetches st.fetchCount).2 ∧
    ((rebuildAndSign pk sets st.signedTXs (i + 1)
        (env.fetches st.fetchCount).2).getD j dummyTx).walletSigned = true) ∧
  (∃ d, (processIndex cfg env pk sets (i + 1)
      (processIndex cfg env pk sets i st).1).1.trace =
    (processIndex cfg env pk sets i st).1.trace ++
      Event.submitTx (i + 1)
        ((rebuildAndSign pk sets st.signedTXs (i + 1)
          (env.fetches st.fetchCount).2).getD (i + 1) dummyTx)
        (env.submits (st.submitCount + 1)) :: d)

/-- Conclusion of the re-anchor-on-retry property: after a transient timeout
below the attempt bound, the engine re-reads the slot; on drift of 150 or more
it fetches one fresh (slot, blockhash) pair, rebuilds and re-signs the suffix
starting at `i` itself, fires the re-sign callback with the current attempt
number, and retries with the freshly signed transaction for `i`; without
drift it retries the very same transaction with no fetch and no rebuild. -/
def RetryReanchorsOnDrift (cfg : Config) (env : Env) (pk : Nat)
    (sets : List InstructionSet) (i fuel rn : Nat) (tx : Transaction)
    (st : SendState) : Prop :=
  (st.slot + 150 ≤ env.slotQueries st.slotQueryCount →
    attemptLoop cfg env pk sets i (fuel + 1) rn tx st =
      attemptLoop cfg env pk sets i fuel (rn + 1)
        ((rebuildAndSign pk sets st.signedTXs i
          (env.fetches st.fetchCount).2).getD i dummyTx)
        { st with
            signedTXs := rebuildAndSign pk sets st.signedTXs i
              (env.fetches st.fetchCount).2
            slot := (env.fetches st.fetchCount).1
            blockhash := (env.fetches st.fetchCount).2
            fetchCount := st.fetchCount + 1
            slotQueryCount := st.slotQueryCount + 1
            submitCount := st.submitCount + 1
            trace := st.trace ++
              [Event.submitTx i tx (TxResult.failed "timeout"),
               Event.slotQuery (env.slotQueries st.slotQueryCount),
               Event.fetchAnchor (env.fetches st.fetchCount).1
                 (env.fetches st.fetchCount).2,
               Event.reSignCb (rn + 1) i,
               Event.signBatch ((rebuildAndSign pk sets st.signedTXs i
                 (env.fetches st.fetchCount).2).drop i)] } ∧
    ((rebuildAndSign pk sets st.signedTXs i
        (env.fetches st.fetchCount).2).getD i dummyTx).recentBlockhash =
      (env.fetches st.fetchCount).2 ∧
    ((rebuildAndSign pk sets st.signedTXs i
        (env.fetches st.fetchCount).2).getD i dummyTx).walletSigned = true) ∧
  (¬ (st.slot + 150 ≤ env.slotQueries st.slotQueryCount) →
    attemptLoop cfg env pk sets i (fuel + 1) rn tx st =
      attemptLoop cfg env pk sets i fuel (rn + 1) tx
        { st with
            slotQueryCount := st.slotQueryCount + 1
            submitCount := st.submitCount + 1
            trace := st.trace ++
              [Event.submitTx i tx (TxResult.failed "timeout"),
               Event.slotQuery (env.slotQueries st.slotQueryCount)] })

/-- Conclusion of the bounded-retry-exhaustion property: when every
submission of index `i` times out, `processIndex` rejects with
`MAX_RESIGN_ATTEMPTS_REACHED` after exactly `maxSigningAttempts` submission
attempts, all for index `i`; `successfulItems` is unchanged, the failure
callback fires once, last, with that error and the unchanged count, and no
progress callback fires. -/
def TimeoutExhaustsAttempts (cfg : Config) (env : Env) (pk : Nat)
    (sets : List InstructionSet) (i : Nat) (st : SendState) : Prop :=
  ∃ st1 d,
    processIndex cfg env pk sets i st =
      (st1, some SenderError.maxResignAttemptsReached) ∧
    st1.successfulItems = st.successfulItems ∧
    st1.trace = st.trace ++ d ++
      [Event.failureCb SenderError.maxResignAttemptsReached i
        st.successfulItems (jsIndex sets ((st.successfulItems : Int) - 1))] ∧
    (submitEvents d).length = cfg.maxSigningAttempts ∧
    (∀ ev ∈ d, ∀ n tx2 r, ev = Event.submitTx n tx2 r → n = i) ∧
    (∀ ev ∈ d, isFailureEvent ev = false) ∧
    progressEvents st1.trace = progressEvents st.trace ∧
    (st.successfulItems = (progressEvents st.trace).length →
      st1.successfulItems = (progressEvents st1.trace).length) ∧
    ((∀ ev ∈ progressEvents st.trace, ∃ j, j < i ∧ ev = Event.progressCb j) →
      ∀ ev ∈ progressEvents st1.trace, ∃ j, j < i ∧ ev = Event.progressCb j)

/-- The paired-fetch relation between an engine state and a later one: the
fetch counter never decreases, and either the baseline slot and the current
blockhash are both untouched, or both were taken from one and the same
`getSlotAndCurrentBlockHash` query. -/
def anchorTogether (env : Env) (st st1 : SendState) : Prop :=
  st.fetchCount ≤ st1.fetchCount ∧
  ((st1.slot = st.slot ∧ st1.blockhash = st.blockhash) ∨
    ∃ k, st.fetchCount ≤ k ∧ k < st1.fetchCount ∧
      st1.slot = (env.fetches k).1 ∧ st1.blockhash = (env.fetches k).2)

/-- Witness batch: two groups with one operation each. -/
def wgA : InstructionSet := ⟨[], [⟨1⟩]⟩

/-- Witness batch: second group. -/
def wgB : InstructionSet := ⟨[], [⟨2⟩]⟩

/-- Witness batch of two non-empty groups. -/
def wsets : List InstructionSet := [wgA, wgB]

/-- Witness signed transaction for `wgA` against blockhash 7. -/
def wtxA : Transaction := walletSign (buildTx 5 7 wgA)

/-- Witness signed transaction for `wgB` against blockhash 7. -/
def wtxB : Transaction := walletSign (buildTx 5 7 wgB)

/-- Witness mid-run engine state: both transactions signed against
blockhash 7, baseline slot 0, nothing submitted yet. -/
def wst : SendState :=
  { signedTXs := [wtxA, wtxB], slot := 0, blockhash := 7,
    successfulItems := 0, fetchCount := 1, slotQueryCount := 0,
    submitCount := 0, trace := [] }

/-- Witness configuration: three signing attempts, abort on failure. -/
def wcfgAbort : Config := ⟨3, true⟩

/-- Witness environment: every submission accepted at slot 0, no drift. -/
def wenvAccept : Env := ⟨fun _ => (0, 7), fun _ => 0, fun _ => TxResult.accepted 0⟩

/-- Witness environment: every submission fails fatally. -/
def wenvMisc : Env := ⟨fun _ => (0, 7), fun _ => 0, fun _ => TxResult.failed "misc-error"⟩

/-- Witness environment: every submission times out. -/
def wenvTimeout : Env := ⟨fun _ => (0, 7), fun _ => 0, fun _ => TxResult.failed "timeout"⟩

/-- Witness environment: submissions accepted at slot 200 (drifted past the
baseline-0 window), fresh fetches return slot 200 and blockhash 9. -/
def wenvDrift : Env := ⟨fun _ => (200, 9), fun _ => 0, fun _ => TxResult.accepted 200⟩

/-- Witness environment: submissions time out and the re-checked slot is 200,
so drift is detected on retry. -/
def wenvRetryDrift : Env := ⟨fun _ => (200, 9), fun _ => 200, fun _ => TxResult.failed "timeout"⟩

/-- The failing batch for the rebuild-preservation claim: the first group has
an empty operation list, so the initial build filters it out while the
rebuild loop indexes the unfiltered list. -/
def bugSets : List InstructionSet := [⟨[], []⟩, ⟨[], [⟨1⟩]⟩, ⟨[], [⟨2⟩]⟩]

/-- The signed transaction array `send` builds for `bugSets` against
blockhash 7 (exactly the initial-build expression of `send`). -/
def bugInitialTXs : List Transaction :=
  ((bugSets.filter fun s => ¬ s.instructions.isEmpty).map (buildTx 5 7)).map
    walletSign

/-- Extract the final state of a completed `send` run (the precondition-throw
outcomes carry no state and map to an inert empty state). -/
def finalStateD : SendOutcome → SendState
  | SendOutcome.completed st => st
  | _ => { signedTXs := [], slot := 0, blockhash := 0, successfulItems := 0,
           fetchCount := 0, slotQueryCount := 0, submitCount := 0, trace := [] }

end SafecoinSender

namespace SafecoinSender

theorem setAt_length {l : List Transaction} {k : Nat} (t : Transaction)
    (hk : k ≤ l.length) : (setAt l k t).length = max l.length (k + 1) := by
  unfold setAt
  split
  · simp
    omega
  · have : k = l.length := by omega
    simp [this]

theorem setAt_getElem?_lt {l : List Transaction} {j k : Nat} (t : Transaction)
    (hjk : j < k) (hk : k ≤ l.length) : (setAt l k t)[j]? = l[j]? := by
  unfold setAt
  split
  · exact List.getElem?_set_ne (by omega)
  · have hjl : j < l.length := by omega
    simp [List.getElem?_append, hjl]

theorem setAt_getElem?_self {l : List Transaction} {k : Nat} (t : Transaction)
    (hk : k ≤ l.length) : (setAt l k t)[k]? = some t := by
  unfold setAt
  split
  · simp_all
  · have hk' : k = l.length := by omega
    subst hk'
    simp

theorem rebuildLoop_length (pk : Nat) (sets : List InstructionSet) (bh : Nat) :
    ∀ (steps : Nat) (txs : List Transaction) (j : Nat), j ≤ txs.length →
      (rebuildLoop pk sets bh txs j steps).length = max txs.length (j + steps) := by
  intro steps
  induction steps with
  | zero => intro txs j hj; simp [rebuildLoop]; omega
  | succ n ih =>
      intro txs j hj
      rw [rebuildLoop]
      rw [ih _ (j + 1) (by rw [setAt_length _ hj]; omega)]
      rw [setAt_length _ hj]
      omega

theorem rebuildLoop_getElem?_lt (pk : Nat) (sets : List InstructionSet) (bh : Nat) :
    ∀ (steps : Nat) (txs : List Transaction) (j i : Nat), i < j → j ≤ txs.length →
      (rebuildLoop pk sets bh txs j steps)[i]? = txs[i]? := by
  intro steps
  induction steps with
  | zero => intro txs j i _ _; simp [rebuildLoop]
  | succ n ih =>
      intro txs j i hij hj
      rw [rebuildLoop]
      rw [ih _ (j + 1) i (by omega) (by rw [setAt_length _ hj]; omega)]
      exact setAt_getElem?_lt _ hij hj

theorem rebuildLoop_getElem?_ge (pk : Nat) (sets : List InstructionSet) (bh : Nat) :
    ∀ (steps : Nat) (txs : List Transaction) (j i : Nat), j ≤ i → i < j + steps →
      j ≤ txs.length →
      (rebuildLoop pk sets bh txs j steps)[i]? =
        some (buildTx pk bh (sets.getD i ⟨[], []⟩)) := by
  intro steps
  induction steps with
  | zero => intro txs j i h1 h2 _; omega
  | succ n ih =>
      intro txs j i h1 h2 hj
      rw [rebuildLoop]
      rcases Nat.eq_or_lt_of_le h1 with h | h
      · subst h
        rw [rebuildLoop_getElem?_lt pk sets bh n _ (j + 1) j (by omega)
          (by rw [setAt_length _ hj]; omega)]
        exact setAt_getElem?_self _ hj
      · exact ih _ (j + 1) i h (by omega) (by rw [setAt_length _ hj]; omega)

theorem rebuildAndSign_length {pk : Nat} {sets : List InstructionSet}
    {txs : List Transaction} {idx bh : Nat}
    (h1 : idx ≤ txs.length) (h2 : txs.length ≤ sets.length) :
    (rebuildAndSign pk sets txs idx bh).length = sets.length := by
  unfold rebuildAndSign
  rw [List.length_append, List.length_take, List.length_map, List.length_drop,
    rebuildLoop_length pk sets bh _ _ _ h1]
  omega

theorem rebuildAndSign_getElem?_lt {pk : Nat} {sets : List InstructionSet}
    {txs : List Transaction} {idx bh : Nat} {j : Nat}
    (hj : j < idx) (h1 : idx ≤ txs.length) :
    (rebuildAndSign pk sets txs idx bh)[j]? = txs[j]? := by
  unfold rebuildAndSign
  have hlen : txs.length ≤ (rebuildLoop pk sets bh txs idx (sets.length - idx)).length := by
    rw [rebuildLoop_length pk sets bh _ _ _ h1]; omega
  have hjtk : j < (List.take idx (rebuildLoop pk sets bh txs idx (sets.length - idx))).length := by
    rw [List.length_take]; omega
  rw [List.getElem?_append, if_pos hjtk, List.getElem?_take, if_pos hj]
  exact rebuildLoop_getElem?_lt pk sets bh _ _ _ _ hj h1

theorem rebuildAndSign_getElem?_ge {pk : Nat} {sets : List InstructionSet}
    {txs : List Transaction} {idx bh : Nat} {j : Nat}
    (hj : idx ≤ j) (hjs : j < sets.length) (h1 : idx ≤ txs.length)
    (h2 : txs.length ≤ sets.length) :
    (rebuildAndSign pk sets txs idx bh)[j]? =
      some (walletSign (buildTx pk bh (sets.getD j ⟨[], []⟩))) := by
  unfold rebuildAndSign
  have hlen : (rebuildLoop pk sets bh txs idx (sets.length - idx)).length = sets.length := by
    rw [rebuildLoop_length pk sets bh _ _ _ h1]; omega
  have htake : (List.take idx (rebuildLoop pk sets bh txs idx (sets.length - idx))).length = idx := by
    rw [List.length_take]; omega
  rw [List.getElem?_append_right (by omega)]
  rw [htake, List.getElem?_map, List.getElem?_drop]
  rw [show idx + (j - idx) = j by omega]
  rw [rebuildLoop_getElem?_ge pk sets bh _ _ _ _ hj (by omega) h1]
  rfl

theorem rebuildAndSign_getD_ge {pk : Nat} {sets : List InstructionSet}
    {txs : List Transaction} {idx bh : Nat} {j : Nat}
    (hj : idx ≤ j) (hjs : j < sets.length) (h1 : idx ≤ txs.length)
    (h2 : txs.length ≤ sets.length) :
    (rebuildAndSign pk sets txs idx bh).getD j dummyTx =
      walletSign (buildTx pk bh (sets.getD j ⟨[], []⟩)) := by
  rw [List.getD_eq_getElem?_getD, rebuildAndSign_getElem?_ge hj hjs h1 h2]
  rfl

theorem rebuildAndSign_headD_drop {pk : Nat} {sets : List InstructionSet}
    {txs : List Transaction} {idx bh : Nat} (d : Transaction)
    (hjs : idx < sets.length) (h1 : idx ≤ txs.length)
    (h2 : txs.length ≤ sets.length) :
    ((rebuildAndSign pk sets txs idx bh).drop idx).headD d =
      walletSign (buildTx pk bh (sets.getD idx ⟨[], []⟩)) := by
  rw [List.headD_eq_head?_getD, List.head?_drop,
    rebuildAndSign_getElem?_ge (Nat.le_refl idx) hjs h1 h2]
  rfl

theorem attemptOnce_accept_nodrift {cfg : Config} {env : Env} {pk : Nat}
    {sets : List InstructionSet} {i rn : Nat} {tx : Transaction}
    {st : SendState} {c : Nat}
    (h1 : env.submits st.submitCount = TxResult.accepted c)
    (h2 : c < st.slot + 150) :
    attemptOnce cfg env pk sets i rn tx st =
      StepResult.done
        { st with submitCount := st.submitCount + 1
                  successfulItems := st.successfulItems + 1
                  trace := st.trace ++
                    [Event.submitTx i tx (TxResult.accepted c),
                     Event.progressCb i] }
        none := by
  have h2' : ¬ (st.slot + 150 ≤ c) := by omega
  simp [attemptOnce, h1, h2', List.append_assoc]

theorem attemptOnce_accept_drift_last {cfg : Config} {env : Env} {pk : Nat}
    {sets : List InstructionSet} {i rn : Nat} {tx : Transaction}
    {st : SendState} {c : Nat}
    (h1 : env.submits st.submitCount = TxResult.accepted c)
    (h2 : st.slot + 150 ≤ c)
    (h3 : ¬ (i + 1 < st.signedTXs.length)) :
    attemptOnce cfg env pk sets i rn tx st =
      StepResult.done
        { st with submitCount := st.submitCount + 1
                  successfulItems := st.successfulItems + 1
                  trace := st.trace ++
                    [Event.submitTx i tx (TxResult.accepted c),
                     Event.progressCb i] }
        none := by
  simp [attemptOnce, h1, h2, h3, List.append_assoc]

theorem attemptOnce_accept_drift_rebuild {cfg : Config} {env : Env} {pk : Nat}
    {sets : List InstructionSet} {i rn : Nat} {tx : Transaction}
    {st : SendState} {c : Nat}
    (h1 : env.submits st.submitCount = TxResult.accepted c)
    (h2 : st.slot + 150 ≤ c)
    (h3 : i + 1 < st.signedTXs.length) :
    attemptOnce cfg env pk sets i rn tx st =
      StepResult.done
        { st with signedTXs := rebuildAndSign pk sets st.signedTXs (i + 1)
                    (env.fetches st.fetchCount).2
                  slot := (env.fetches st.fetchCount).1
                  blockhash := (env.fetches st.fetchCount).2
                  successfulItems := st.successfulItems + 1
                  fetchCount := st.fetchCount + 1
                  submitCount := st.submitCount + 1
                  trace := st.trace ++
                    [Event.submitTx i tx (TxResult.accepted c),
                     Event.progressCb i,
                     Event.fetchAnchor (env.fetches st.fetchCount).1
                       (env.fetches st.fetchCount).2,
                     Event.reSignCb 0 (i + 1),
                     Event.signBatch ((rebuildAndSign pk sets st.signedTXs (i + 1)
                       (env.fetches st.fetchCount).2).drop (i + 1))] }
        none := by
  simp [attemptOnce, h1, h2, h3, List.append_assoc]

theorem attemptOnce_timeout_bail {cfg : Config} {env : Env} {pk : Nat}
    {sets : List InstructionSet} {i rn : Nat} {tx : Transaction}
    {st : SendState}
    (h1 : env.submits st.submitCount = TxResult.failed "timeout")
    (h2 : cfg.maxSigningAttempts ≤ rn + 1) :
    attemptOnce cfg env pk sets i rn tx st =
      StepResult.done
        { st with submitCount := st.submitCount + 1
                  trace := st.trace ++
                    [Event.submitTx i tx (TxResult.failed "timeout")] }
        (some SenderError.maxResignAttemptsReached) := by
  simp [attemptOnce, h1, h2]

theorem attemptOnce_timeout_retry_drift {cfg : Config} {env : Env} {pk : Nat}
    {sets : List InstructionSet} {i rn : Nat} {tx : Transaction}
    {st : SendState}
    (h1 : env.submits st.submitCount = TxResult.failed "timeout")
    (h2 : rn + 1 < cfg.maxSigningAttempts)
    (h3 : st.slot + 150 ≤ env.slotQueries st.slotQueryCount) :
    attemptOnce cfg env pk sets i rn tx st =
      StepResult.again
        { st with signedTXs := rebuildAndSign pk sets st.signedTXs i
                    (env.fetches st.fetchCount).2
                  slot := (env.fetches st.fetchCount).1
                  blockhash := (env.fetches st.fetchCount).2
                  fetchCount := st.fetchCount + 1
                  slotQueryCount := st.slotQueryCount + 1
                  submitCount := st.submitCount + 1
                  trace := st.trace ++
                    [Event.submitTx i tx (TxResult.failed "timeout"),
                     Event.slotQuery (env.slotQueries st.slotQueryCount),
                     Event.fetchAnchor (env.fetches st.fetchCount).1
                       (env.fetches st.fetchCount).2,
                     Event.reSignCb (rn + 1) i,
                     Event.signBatch ((rebuildAndSign pk sets st.signedTXs i
                       (env.fetches st.fetchCount).2).drop i)] }
        (rn + 1)
        (((rebuildAndSign pk sets st.signedTXs i
            (env.fetches st.fetchCount).2).drop i).headD tx) := by
  have h2' : ¬ (cfg.maxSigningAttempts ≤ rn + 1) := by omega
  simp [attemptOnce, h1, h2', h3, List.append_assoc]

theorem attemptOnce_timeout_retry_nodrift {cfg : Config} {env : Env} {pk : Nat}
    {sets : List InstructionSet} {i rn : Nat} {tx : Transaction}
    {st : SendState}
    (h1 : env.submits st.submitCount = TxResult.failed "timeout")
    (h2 : rn + 1 < cfg.maxSigningAttempts)
    (h3 : ¬ (st.slot + 150 ≤ env.slotQueries st.slotQueryCount)) :
    attemptOnce cfg env pk sets i rn tx st =
      StepResult.again
        { st with slotQueryCount := st.slotQueryCount + 1
                  submitCount := st.submitCount + 1
                  trace := st.trace ++
                    [Event.submitTx i tx (TxResult.failed "timeout"),
                     Event.slotQuery (env.slotQueries st.slotQueryCount)] }
        (rn + 1) tx := by
  have h2' : ¬ (cfg.maxSigningAttempts ≤ rn + 1) := by omega
  simp [attemptOnce, h1, h2', h3, List.append_assoc]

theorem attemptOnce_fatal {cfg : Config} {env : Env} {pk : Nat}
    {sets : List InstructionSet} {i rn : Nat} {tx : Transaction}
    {st : SendState} {t : String}
    (h1 : env.submits st.submitCount = TxResult.failed t)
    (h2 : t ≠ "timeout") :
    attemptOnce cfg env pk sets i rn tx st =
      StepResult.done
        { st with submitCount := st.submitCount + 1
                  trace := st.trace ++ [Event.submitTx i tx (TxResult.failed t)] }
        (some (SenderError.txErr t)) := by
  simp [attemptOnce, h1, h2]

theorem attemptLoop_done {cfg : Config} {env : Env} {pk : Nat}
    {sets : List InstructionSet} {i fuel rn : Nat} {tx : Transaction}
    {st st1 : SendState} {e : Option SenderError}
    (h : attemptOnce cfg env pk sets i rn tx st = StepResult.done st1 e) :
    attemptLoop cfg env pk sets i fuel rn tx st = (st1, e) := by
  cases fuel <;> simp [attemptLoop, h]

theorem attemptLoop_again_succ {cfg : Config} {env : Env} {pk : Nat}
    {sets : List InstructionSet} {i fuel rn rn1 : Nat} {tx tx1 : Transaction}
    {st st1 : SendState}
    (h : attemptOnce cfg env pk sets i rn tx st = StepResult.again st1 rn1 tx1) :
    attemptLoop cfg env pk sets i (fuel + 1) rn tx st =
      attemptLoop cfg env pk sets i fuel rn1 tx1 st1 := by
  simp [attemptLoop, h]

theorem attemptLoop_again_zero {cfg : Config} {env : Env} {pk : Nat}
    {sets : List InstructionSet} {i rn rn1 : Nat} {tx tx1 : Transaction}
    {st st1 : SendState}
    (h : attemptOnce cfg env pk sets i rn tx st = StepResult.again st1 rn1 tx1) :
    attemptLoop cfg env pk sets i 0 rn tx st =
      (st1, some (SenderError.txErr "timeout")) := by
  simp [attemptLoop, h]

theorem attemptOnce_step_shape {cfg : Config} {env : Env} {pk : Nat}
    {sets : List InstructionSet} {i rn : Nat} {tx : Transaction}
    {st : SendState} :
    ∃ d, (stepState (attemptOnce cfg env pk sets i rn tx st)).trace =
        st.trace ++ Event.submitTx i tx (env.submits st.submitCount) :: d ∧
      (∀ ev ∈ d, isFailureEvent ev = false) ∧
      (stepState (attemptOnce cfg env pk sets i rn tx st)).submitCount =
        st.submitCount + 1 := by
  rcases h : env.submits st.submitCount with c | t
  · by_cases hd : st.slot + 150 ≤ c
    · by_cases hn : i + 1 < st.signedTXs.length
      · rw [attemptOnce_accept_drift_rebuild h hd hn]
        refine ⟨[Event.progressCb i,
          Event.fetchAnchor (env.fetches st.fetchCount).1 (env.fetches st.fetchCount).2,
          Event.reSignCb 0 (i + 1),
          Event.signBatch ((rebuildAndSign pk sets st.signedTXs (i + 1)
            (env.fetches st.fetchCount).2).drop (i + 1))],
          by simp [stepState, h], ?_, by simp [stepState]⟩
        intro ev hev
        simp only [List.mem_cons, List.not_mem_nil, or_false] at hev
        rcases hev with h | h | h | h  <;> simp [h, isFailureEvent]
      · rw [attemptOnce_accept_drift_last h hd hn]
        refine ⟨[Event.progressCb i], by simp [stepState, h], ?_, by simp [stepState]⟩
        intro ev hev
        simp only [List.mem_cons, List.not_mem_nil, or_false] at hev
        simp [hev, isFailureEvent]
    · rw [attemptOnce_accept_nodrift h (by omega)]
      refine ⟨[Event.progressCb i], by simp [stepState, h], ?_, by simp [stepState]⟩
      intro ev hev
      simp only [List.mem_cons, List.not_mem_nil, or_false] at hev
      simp [hev, isFailureEvent]
  · by_cases ht : t = "timeout"
    · subst ht
      by_cases hb : cfg.maxSigningAttempts ≤ rn + 1
      · rw [attemptOnce_timeout_bail h hb]
        exact ⟨[], by simp [stepState, h], by simp, by simp [stepState]⟩
      · by_cases hdr : st.slot + 150 ≤ env.slotQueries st.slotQueryCount
        · rw [attemptOnce_timeout_retry_drift h (by omega) hdr]
          refine ⟨[Event.slotQuery (env.slotQueries st.slotQueryCount),
            Event.fetchAnchor (env.fetches st.fetchCount).1 (env.fetches st.fetchCount).2,
            Event.reSignCb (rn + 1) i,
            Event.signBatch ((rebuildAndSign pk sets st.signedTXs i
              (env.fetches st.fetchCount).2).drop i)],
            by simp [stepState, h], ?_, by simp [stepState]⟩
          intro ev hev
          simp only [List.mem_cons, List.not_mem_nil, or_false] at hev
          rcases hev with h | h | h | h <;> simp [h, isFailureEvent]
        · rw [attemptOnce_timeout_retry_nodrift h (by omega) hdr]
          refine ⟨[Event.slotQuery (env.slotQueries st.slotQueryCount)],
            by simp [stepState, h], ?_, by simp [stepState]⟩
          intro ev hev
          simp only [List.mem_cons, List.not_mem_nil, or_false] at hev
          simp [hev, isFailureEvent]
    · rw [attemptOnce_fatal h ht]
      exact ⟨[], by simp [stepState, h], by simp, by simp [stepState]⟩

theorem attemptOnce_err_successfulItems {cfg : Config} {env : Env} {pk : Nat}
    {sets : List InstructionSet} {i rn : Nat} {tx : Transaction}
    {st st1 : SendState} {e : SenderError}
    (hr : attemptOnce cfg env pk sets i rn tx st = StepResult.done st1 (some e)) :
    st1.successfulItems = st.successfulItems := by
  rcases h : env.submits st.submitCount with c | t
  · by_cases hd : st.slot + 150 ≤ c
    · by_cases hn : i + 1 < st.signedTXs.length
      · rw [attemptOnce_accept_drift_rebuild h hd hn] at hr; simp at hr
      · rw [attemptOnce_accept_drift_last h hd hn] at hr; simp at hr
    · rw [attemptOnce_accept_nodrift h (by omega)] at hr; simp at hr
  · by_cases ht : t = "timeout"
    · subst ht
      by_cases hb : cfg.maxSigningAttempts ≤ rn + 1
      · rw [attemptOnce_timeout_bail h hb] at hr
        simp only [StepResult.done.injEq] at hr
        rw [← hr.1]
      · by_cases hdr : st.slot + 150 ≤ env.slotQueries st.slotQueryCount
        · rw [attemptOnce_timeout_retry_drift h (by omega) hdr] at hr; simp at hr
        · rw [attemptOnce_timeout_retry_nodrift h (by omega) hdr] at hr; simp at hr
    · rw [attemptOnce_fatal h ht] at hr
      simp only [StepResult.done.injEq] at hr
      rw [← hr.1]

theorem attemptOnce_again_successfulItems {cfg : Config} {env : Env} {pk : Nat}
    {sets : List InstructionSet} {i rn rn1 : Nat} {tx tx1 : Transaction}
    {st st1 : SendState}
    (hr : attemptOnce cfg env pk sets i rn tx st = StepResult.again st1 rn1 tx1) :
    st1.successfulItems = st.successfulItems := by
  rcases h : env.submits st.submitCount with c | t
  · by_cases hd : st.slot + 150 ≤ c
    · by_cases hn : i + 1 < st.signedTXs.length
      · rw [attemptOnce_accept_drift_rebuild h hd hn] at hr; simp at hr
      · rw [attemptOnce_accept_drift_last h hd hn] at hr; simp at hr
    · rw [attemptOnce_accept_nodrift h (by omega)] at hr; simp at hr
  · by_cases ht : t = "timeout"
    · subst ht
      by_cases hb : cfg.maxSigningAttempts ≤ rn + 1
      · rw [attemptOnce_timeout_bail h hb] at hr; simp at hr
      · by_cases hdr : st.slot + 150 ≤ env.slotQueries st.slotQueryCount
        · rw [attemptOnce_timeout_retry_drift h (by omega) hdr] at hr
          simp only [StepResult.again.injEq] at hr
          rw [← hr.1]
        · rw [attemptOnce_timeout_retry_nodrift h (by omega) hdr] at hr
          simp only [StepResult.again.injEq] at hr
          rw [← hr.1]
    · rw [attemptOnce_fatal h ht] at hr; simp at hr


theorem attemptLoop_trace_mono {cfg : Config} {env : Env} {pk : Nat}
    {sets : List InstructionSet} {i : Nat} :
    ∀ (fuel rn : Nat) (tx : Transaction) (st : SendState),
      ∃ d, (attemptLoop cfg env pk sets i fuel rn tx st).1.trace = st.trace ++ d ∧
        ∀ ev ∈ d, isFailureEvent ev = false := by
  intro fuel
  induction fuel with
  | zero =>
      intro rn tx st
      obtain ⟨d0, htr, hnf, _⟩ := @attemptOnce_step_shape cfg env pk sets i rn tx st
      cases hr : attemptOnce cfg env pk sets i rn tx st with
      | done st1 e =>
          rw [attemptLoop_done hr]
          rw [hr] at htr; simp only [stepState] at htr
          refine ⟨_, htr, ?_⟩
          intro ev hev
          rcases List.mem_cons.mp hev with h | h
          · simp [h, isFailureEvent]
          · exact hnf ev h
      | again st1 rn1 tx1 =>
          rw [attemptLoop_again_zero hr]
          rw [hr] at htr; simp only [stepState] at htr
          refine ⟨_, htr, ?_⟩
          intro ev hev
          rcases List.mem_cons.mp hev with h | h
          · simp [h, isFailureEvent]
          · exact hnf ev h
  | succ fuel ih =>
      intro rn tx st
      obtain ⟨d0, htr, hnf, _⟩ := @attemptOnce_step_shape cfg env pk sets i rn tx st
      cases hr : attemptOnce cfg env pk sets i rn tx st with
      | done st1 e =>
          rw [attemptLoop_done hr]
          rw [hr] at htr; simp only [stepState] at htr
          refine ⟨_, htr, ?_⟩
          intro ev hev
          rcases List.mem_cons.mp hev with h | h
          · simp [h, isFailureEvent]
          · exact hnf ev h
      | again st1 rn1 tx1 =>
          rw [attemptLoop_again_succ hr]
          rw [hr] at htr; simp only [stepState] at htr
          obtain ⟨d2, htr2, hnf2⟩ := ih rn1 tx1 st1
          refine ⟨Event.submitTx i tx (env.submits st.submitCount) :: (d0 ++ d2),
            ?_, ?_⟩
          · rw [htr2, htr]; simp
          · intro ev hev
            rcases List.mem_cons.mp hev with h | h
            · simp [h, isFailureEvent]
            · rcases List.mem_append.mp h with h | h
              · exact hnf ev h
              · exact hnf2 ev h

theorem attemptLoop_trace_head {cfg : Config} {env : Env} {pk : Nat}
    {sets : List InstructionSet} {i : Nat} (fuel rn : Nat) (tx : Transaction)
    (st : SendState) :
    ∃ d, (attemptLoop cfg env pk sets i fuel rn tx st).1.trace =
      st.trace ++ Event.submitTx i tx (env.submits st.submitCount) :: d := by
  obtain ⟨d0, htr, _, _⟩ := @attemptOnce_step_shape cfg env pk sets i rn tx st
  cases fuel with
  | zero =>
      cases hr : attemptOnce cfg env pk sets i rn tx st with
      | done st1 e =>
          rw [attemptLoop_done hr]
          rw [hr] at htr; simp only [stepState] at htr
          exact ⟨d0, htr⟩
      | again st1 rn1 tx1 =>
          rw [attemptLoop_again_zero hr]
          rw [hr] at htr; simp only [stepState] at htr
          exact ⟨d0, htr⟩
  | succ fuel =>
      cases hr : attemptOnce cfg env pk sets i rn tx st with
      | done st1 e =>
          rw [attemptLoop_done hr]
          rw [hr] at htr; simp only [stepState] at htr
          exact ⟨d0, htr⟩
      | again st1 rn1 tx1 =>
          rw [attemptLoop_again_succ hr]
          rw [hr] at htr; simp only [stepState] at htr
          obtain ⟨d2, htr2, _⟩ := @attemptLoop_trace_mono cfg env pk sets i fuel rn1 tx1 st1
          refine ⟨d0 ++ d2, ?_⟩
          rw [htr2, htr]; simp

theorem attemptLoop_err {cfg : Config} {env : Env} {pk : Nat}
    {sets : List InstructionSet} {i : Nat} :
    ∀ (fuel rn : Nat) (tx : Transaction) (st st1 : SendState) (e : SenderError),
      attemptLoop cfg env pk sets i fuel rn tx st = (st1, some e) →
      st1.successfulItems = st.successfulItems ∧
      ∃ d, st1.trace = st.trace ++ d ∧ ∀ ev ∈ d, isFailureEvent ev = false := by
  intro fuel
  induction fuel with
  | zero =>
      intro rn tx st st1 e hl
      obtain ⟨d0, htr, hnf, _⟩ := @attemptOnce_step_shape cfg env pk sets i rn tx st
      cases hr : attemptOnce cfg env pk sets i rn tx st with
      | done st2 e2 =>
          rw [attemptLoop_done hr] at hl
          simp only [Prod.mk.injEq] at hl
          obtain ⟨h1, h2⟩ := hl
          subst h1
          subst h2
          refine ⟨attemptOnce_err_successfulItems hr, ?_⟩
          rw [hr] at htr; simp only [stepState] at htr
          refine ⟨_, htr, ?_⟩
          intro ev hev
          rcases List.mem_cons.mp hev with h | h
          · simp [h, isFailureEvent]
          · exact hnf ev h
      | again st2 rn2 tx2 =>
          rw [attemptLoop_again_zero hr] at hl
          simp only [Prod.mk.injEq] at hl
          obtain ⟨h1, _⟩ := hl
          subst h1
          refine ⟨attemptOnce_again_successfulItems hr, ?_⟩
          rw [hr] at htr; simp only [stepState] at htr
          refine ⟨_, htr, ?_⟩
          intro ev hev
          rcases List.mem_cons.mp hev with h | h
          · simp [h, isFailureEvent]
          · exact hnf ev h
  | succ fuel ih =>
      intro rn tx st st1 e hl
      obtain ⟨d0, htr, hnf, _⟩ := @attemptOnce_step_shape cfg env pk sets i rn tx st
      cases hr : attemptOnce cfg env pk sets i rn tx st with
      | done st2 e2 =>
          rw [attemptLoop_done hr] at hl
          simp only [Prod.mk.injEq] at hl
          obtain ⟨h1, h2⟩ := hl
          subst h1
          subst h2
          refine ⟨attemptOnce_err_successfulItems hr, ?_⟩
          rw [hr] at htr; simp only [stepState] at htr
          refine ⟨_, htr, ?_⟩
          intro ev hev
          rcases List.mem_cons.mp hev with h | h
          · simp [h, isFailureEvent]
          · exact hnf ev h
      | again st2 rn2 tx2 =>
          rw [attemptLoop_again_succ hr] at hl
          obtain ⟨hsc, d2, htr2, hnf2⟩ := ih rn2 tx2 st2 st1 e hl
          rw [hr] at htr; simp only [stepState] at htr
          refine ⟨by rw [hsc, attemptOnce_again_successfulItems hr], ?_⟩
          refine ⟨Event.submitTx i tx (env.submits st.submitCount) :: (d0 ++ d2), ?_, ?_⟩
          · rw [htr2, htr]; simp
          · intro ev hev
            rcases List.mem_cons.mp hev with h | h
            · simp [h, isFailureEvent]
            · rcases List.mem_append.mp h with h | h
              · exact hnf ev h
              · exact hnf2 ev h

theorem processIndex_of_none {cfg : Config} {env : Env} {pk : Nat}
    {sets : List InstructionSet} {i : Nat} {st st1 : SendState}
    (h : attemptLoop cfg env pk sets i cfg.maxSigningAttempts 0
      (st.signedTXs.getD i dummyTx) st = (st1, none)) :
    processIndex cfg env pk sets i st = (st1, none) := by
  unfold processIndex
  rw [h]

theorem processIndex_of_some {cfg : Config} {env : Env} {pk : Nat}
    {sets : List InstructionSet} {i : Nat} {st st1 : SendState} {e : SenderError}
    (h : attemptLoop cfg env pk sets i cfg.maxSigningAttempts 0
      (st.signedTXs.getD i dummyTx) st = (st1, some e)) :
    processIndex cfg env pk sets i st =
      ({ st1 with trace := st1.trace ++
          [Event.failureCb e i st1.successfulItems
            (jsIndex sets ((st1.successfulItems : Int) - 1))] },
       some e) := by
  unfold processIndex
  rw [h]

theorem processIndex_trace_head {cfg : Config} {env : Env} {pk : Nat}
    {sets : List InstructionSet} (i : Nat) (st : SendState) :
    ∃ d, (processIndex cfg env pk sets i st).1.trace =
      st.trace ++ Event.submitTx i (st.signedTXs.getD i dummyTx)
        (env.submits st.submitCount) :: d := by
  obtain ⟨d, hd⟩ := @attemptLoop_trace_head cfg env pk sets i
    cfg.maxSigningAttempts 0 (st.signedTXs.getD i dummyTx) st
  cases hl : attemptLoop cfg env pk sets i cfg.maxSigningAttempts 0
      (st.signedTXs.getD i dummyTx) st with
  | mk st1 oe =>
      rw [hl] at hd
      cases oe with
      | none =>
          rw [processIndex_of_none hl]
          exact ⟨d, hd⟩
      | some e =>
          rw [processIndex_of_some hl]
          refine ⟨d ++ [Event.failureCb e i st1.successfulItems
            (jsIndex sets ((st1.successfulItems : Int) - 1))], ?_⟩
          simp only at hd ⊢
          rw [hd]
          simp

theorem processIndex_err {cfg : Config} {env : Env} {pk : Nat}
    {sets : List InstructionSet} {i : Nat} {st st1 : SendState} {e : SenderError}
    (h : processIndex cfg env pk sets i st = (st1, some e)) :
    st1.successfulItems = st.successfulItems ∧
    ∃ d, st1.trace = st.trace ++ d ++
        [Event.failureCb e i st.successfulItems
          (jsIndex sets ((st.successfulItems : Int) - 1))] ∧
      ∀ ev ∈ d, isFailureEvent ev = false := by
  cases hl : attemptLoop cfg env pk sets i cfg.maxSigningAttempts 0
      (st.signedTXs.getD i dummyTx) st with
  | mk st2 oe =>
      cases oe with
      | none =>
          rw [processIndex_of_none hl] at h
          simp at h
      | some e2 =>
          rw [processIndex_of_some hl] at h
          simp only [Prod.mk.injEq, Option.some.injEq] at h
          obtain ⟨h1, h2⟩ := h
          subst h2
          obtain ⟨hsc, d, htr, hnf⟩ := attemptLoop_err _ _ _ _ _ _ hl
          refine ⟨by rw [← h1]; exact hsc, d, ?_, hnf⟩
          rw [← h1]
          simp only [hsc, htr]

theorem sendLoop_halt {cfg : Config} {env : Env} {pk : Nat}
    {sets : List InstructionSet} {fuel i : Nat} {st : SendState}
    (h : st.signedTXs.length ≤ i) :
    sendLoop cfg env pk sets fuel i st = st := by
  cases fuel with
  | zero => rfl
  | succ fuel => simp [sendLoop, Nat.not_lt.mpr h]

theorem sendLoop_step_none {cfg : Config} {env : Env} {pk : Nat}
    {sets : List InstructionSet} {fuel i : Nat} {st st1 : SendState}
    (hi : i < st.signedTXs.length)
    (h : processIndex cfg env pk sets i st = (st1, none)) :
    sendLoop cfg env pk sets (fuel + 1) i st =
      sendLoop cfg env pk sets fuel (i + 1) st1 := by
  simp [sendLoop, hi, h]

theorem sendLoop_step_some {cfg : Config} {env : Env} {pk : Nat}
    {sets : List InstructionSet} {fuel i : Nat} {st st1 : SendState}
    {e : SenderError}
    (hi : i < st.signedTXs.length)
    (h : processIndex cfg env pk sets i st = (st1, some e)) :
    sendLoop cfg env pk sets (fuel + 1) i st =
      if cfg.abortOnFailure then st1
      else sendLoop cfg env pk sets fuel (i + 1) st1 := by
  simp [sendLoop, hi, h]

theorem submitEvents_append (l1 l2 : List Event) :
    submitEvents (l1 ++ l2) = submitEvents l1 ++ submitEvents l2 :=
  List.filter_append l1 l2

theorem progressEvents_append (l1 l2 : List Event) :
    progressEvents (l1 ++ l2) = progressEvents l1 ++ progressEvents l2 :=
  List.filter_append l1 l2

theorem attemptLoop_timeout {cfg : Config} {env : Env} {pk : Nat}
    {sets : List InstructionSet} {i : Nat} :
    ∀ (fuel rn : Nat) (tx : Transaction) (st : SendState),
      rn < cfg.maxSigningAttempts →
      cfg.maxSigningAttempts ≤ rn + 1 + fuel →
      (∀ k, k < cfg.maxSigningAttempts - rn →
        env.submits (st.submitCount + k) = TxResult.failed "timeout") →
      ∃ st1 d,
        attemptLoop cfg env pk sets i fuel rn tx st =
          (st1, some SenderError.maxResignAttemptsReached) ∧
        st1.trace = st.trace ++ d ∧
        st1.successfulItems = st.successfulItems ∧
        (submitEvents d).length = cfg.maxSigningAttempts - rn ∧
        (∀ ev ∈ d, ∀ n tx2 r, ev = Event.submitTx n tx2 r → n = i) ∧
        (∀ ev ∈ d, isFailureEvent ev = false) ∧
        (∀ ev ∈ d, ∀ n, ev ≠ Event.progressCb n) := by
  intro fuel
  induction fuel with
  | zero =>
      intro rn tx st hrn hbound hto
      have h0 : env.submits st.submitCount = TxResult.failed "timeout" := by
        have := hto 0 (by omega)
        simpa using this
      have hb : cfg.maxSigningAttempts ≤ rn + 1 := by omega
      refine ⟨_, [Event.submitTx i tx (TxResult.failed "timeout")],
        attemptLoop_done (attemptOnce_timeout_bail h0 hb), rfl, rfl, ?_, ?_, ?_, ?_⟩
      · have : cfg.maxSigningAttempts - rn = 1 := by omega
        rw [this]
        rfl
      · intro ev hev n tx2 r hev2
        simp only [List.mem_cons, List.not_mem_nil, or_false] at hev
        rw [hev] at hev2
        exact (Event.submitTx.injEq .. ▸ hev2 :
          i = n ∧ tx = tx2 ∧ TxResult.failed "timeout" = r).1.symm
      · intro ev hev
        simp only [List.mem_cons, List.not_mem_nil, or_false] at hev
        simp [hev, isFailureEvent]
      · intro ev hev n
        simp only [List.mem_cons, List.not_mem_nil, or_false] at hev
        simp [hev]
  | succ fuel ih =>
      intro rn tx st hrn hbound hto
      have h0 : env.submits st.submitCount = TxResult.failed "timeout" := by
        have := hto 0 (by omega)
        simpa using this
      by_cases hb : cfg.maxSigningAttempts ≤ rn + 1
      · refine ⟨_, [Event.submitTx i tx (TxResult.failed "timeout")],
          attemptLoop_done (attemptOnce_timeout_bail h0 hb), rfl, rfl, ?_, ?_, ?_, ?_⟩
        · have : cfg.maxSigningAttempts - rn = 1 := by omega
          rw [this]
          rfl
        · intro ev hev n tx2 r hev2
          simp only [List.mem_cons, List.not_mem_nil, or_false] at hev
          rw [hev] at hev2
          exact (Event.submitTx.injEq .. ▸ hev2 :
            i = n ∧ tx = tx2 ∧ TxResult.failed "timeout" = r).1.symm
        · intro ev hev
          simp only [List.mem_cons, List.not_mem_nil, or_false] at hev
          simp [hev, isFailureEvent]
        · intro ev hev n
          simp only [List.mem_cons, List.not_mem_nil, or_false] at hev
          simp [hev]
      · have h2 : rn + 1 < cfg.maxSigningAttempts := by omega
        have harith : cfg.maxSigningAttempts - rn =
            (cfg.maxSigningAttempts - (rn + 1)) + 1 := by omega
        by_cases hdr : st.slot + 150 ≤ env.slotQueries st.slotQueryCount
        · have hstep := @attemptOnce_timeout_retry_drift cfg env pk sets i rn
            tx st h0 h2 hdr
          obtain ⟨st1, d2, heq, htr, hsc, hlen, hsubi, hnf, hnp⟩ :=
            ih (rn + 1)
              (((rebuildAndSign pk sets st.signedTXs i
                (env.fetches st.fetchCount).2).drop i).headD tx)
              { st with
                  signedTXs := rebuildAndSign pk sets st.signedTXs i
                    (env.fetches st.fetchCount).2
                  slot := (env.fetches st.fetchCount).1
                  blockhash := (env.fetches st.fetchCount).2
                  fetchCount := st.fetchCount + 1
                  slotQueryCount := st.slotQueryCount + 1
                  submitCount := st.submitCount + 1
                  trace := st.trace ++
                    [Event.submitTx i tx (TxResult.failed "timeout"),
                     Event.slotQuery (env.slotQueries st.slotQueryCount),
                     Event.fetchAnchor (env.fetches st.fetchCount).1
                       (env.fetches st.fetchCount).2,
                     Event.reSignCb (rn + 1) i,
                     Event.signBatch ((rebuildAndSign pk sets st.signedTXs i
                       (env.fetches st.fetchCount).2).drop i)] }
              h2 (by omega)
              (by
                intro k hk
                show env.submits (st.submitCount + 1 + k) = _
                rw [show st.submitCount + 1 + k = st.submitCount + (k + 1) from
                  by omega]
                exact hto (k + 1) (by omega))
          refine ⟨st1,
            [Event.submitTx i tx (TxResult.failed "timeout"),
             Event.slotQuery (env.slotQueries st.slotQueryCount),
             Event.fetchAnchor (env.fetches st.fetchCount).1
               (env.fetches st.fetchCount).2,
             Event.reSignCb (rn + 1) i,
             Event.signBatch ((rebuildAndSign pk sets st.signedTXs i
               (env.fetches st.fetchCount).2).drop i)] ++ d2,
            ?_, ?_, ?_, ?_, ?_, ?_, ?_⟩
          · rw [attemptLoop_again_succ hstep]
            exact heq
          · rw [htr]
            simp [List.append_assoc]
          · exact hsc
          · rw [submitEvents_append, List.length_append, hlen, harith]
            have h5 : (submitEvents
                [Event.submitTx i tx (TxResult.failed "timeout"),
                 Event.slotQuery (env.slotQueries st.slotQueryCount),
                 Event.fetchAnchor (env.fetches st.fetchCount).1
                   (env.fetches st.fetchCount).2,
                 Event.reSignCb (rn + 1) i,
                 Event.signBatch ((rebuildAndSign pk sets st.signedTXs i
                   (env.fetches st.fetchCount).2).drop i)]).length = 1 := rfl
            rw [h5]
            omega
          · intro ev hev n tx2 r hev2
            rcases List.mem_append.mp hev with h | h
            · simp only [List.mem_cons, List.not_mem_nil, or_false] at h
              rcases h with h | h | h | h | h <;> rw [h] at hev2
              · injection hev2 with ha hb hc
                exact ha.symm
              · exact Event.noConfusion hev2
              · exact Event.noConfusion hev2
              · exact Event.noConfusion hev2
              · exact Event.noConfusion hev2
            · exact hsubi ev h n tx2 r hev2
          · intro ev hev
            rcases List.mem_append.mp hev with h | h
            · simp only [List.mem_cons, List.not_mem_nil, or_false] at h
              rcases h with h | h | h | h | h <;> simp [h, isFailureEvent]
            · exact hnf ev h
          · intro ev hev n
            rcases List.mem_append.mp hev with h | h
            · simp only [List.mem_cons, List.not_mem_nil, or_false] at h
              rcases h with h | h | h | h | h <;> simp [h]
            · exact hnp ev h n
        · have hstep := @attemptOnce_timeout_retry_nodrift cfg env pk sets i rn
            tx st h0 h2 hdr
          obtain ⟨st1, d2, heq, htr, hsc, hlen, hsubi, hnf, hnp⟩ :=
            ih (rn + 1) tx
              { st with
                  slotQueryCount := st.slotQueryCount + 1
                  submitCount := st.submitCount + 1
                  trace := st.trace ++
                    [Event.submitTx i tx (TxResult.failed "timeout"),
                     Event.slotQuery (env.slotQueries st.slotQueryCount)] }
              h2 (by omega)
              (by
                intro k hk
                show env.submits (st.submitCount + 1 + k) = _
                rw [show st.submitCount + 1 + k = st.submitCount + (k + 1) from
                  by omega]
                exact hto (k + 1) (by omega))
          refine ⟨st1,
            [Event.submitTx i tx (TxResult.failed "timeout"),
             Event.slotQuery (env.slotQueries st.slotQueryCount)] ++ d2,
            ?_, ?_, ?_, ?_, ?_, ?_, ?_⟩
          · rw [attemptLoop_again_succ hstep]
            exact heq
          · rw [htr]
            simp [List.append_assoc]
          · exact hsc
          · rw [submitEvents_append, List.length_append, hlen, harith]
            have h5 : (submitEvents
                [Event.submitTx i tx (TxResult.failed "timeout"),
                 Event.slotQuery (env.slotQueries st.slotQueryCount)]).length
                = 1 := rfl
            rw [h5]
            omega
          · intro ev hev n tx2 r hev2
            rcases List.mem_append.mp hev with h | h
            · simp only [List.mem_cons, List.not_mem_nil, or_false] at h
              rcases h with h | h <;> rw [h] at hev2
              · injection hev2 with ha hb hc
                exact ha.symm
              · exact Event.noConfusion hev2
            · exact hsubi ev h n tx2 r hev2
          · intro ev hev
            rcases List.mem_append.mp hev with h | h
            · simp only [List.mem_cons, List.not_mem_nil, or_false] at h
              rcases h with h | h <;> simp [h, isFailureEvent]
            · exact hnf ev h
          · intro ev hev n
            rcases List.mem_append.mp hev with h | h
            · simp only [List.mem_cons, List.not_mem_nil, or_false] at h
              rcases h with h | h <;> simp [h]
            · exact hnp ev h n

/-- C3: if every submission attempt for index `i` times out, the engine
submits exactly `maxSigningAttempts` times, then reaches the terminal
`MAX_RESIGN_ATTEMPTS_REACHED` failure for `i`, reported through the failure
callback with the unchanged `successfulItems` count — the number of
progress events fired so far, all for indices below `i` when the run state
says so — and no transient failure is surfaced before the bound is
exhausted: the only failure event of the whole extension is the final one. -/
theorem c3_timeout_retries_then_max_resign {cfg : Config} {env : Env}
    {pk : Nat} {sets : List InstructionSet} {i : Nat} {st : SendState}
    (hmax : 1 ≤ cfg.maxSigningAttempts)
    (hto : ∀ k, k < cfg.maxSigningAttempts →
      env.submits (st.submitCount + k) = TxResult.failed "timeout") :
    TimeoutExhaustsAttempts cfg env pk sets i st := by
  obtain ⟨st1, d, heq, htr, hsc, hlen, hsubi, hnf, hnp⟩ :=
    @attemptLoop_timeout cfg env pk sets i cfg.maxSigningAttempts 0
      (st.signedTXs.getD i dummyTx) st (by omega) (by omega)
      (by simpa using hto)
  have hpi := processIndex_of_some heq
  have hpd : progressEvents d = [] := by
    rw [progressEvents, List.filter_eq_nil_iff]
    intro ev hev
    cases ev with
    | progressCb n => exact absurd rfl (hnp (Event.progressCb n) hev n)
    | fetchAnchor s b => simp
    | slotQuery s => simp
    | signBatch txs => simp
    | submitTx n tx2 r => simp
    | reSignCb a n => simp
    | failureCb e n s g => simp
  have hptr : progressEvents (st1.trace ++
      [Event.failureCb SenderError.maxResignAttemptsReached i
        st1.successfulItems
        (jsIndex sets ((st1.successfulItems : Int) - 1))]) =
      progressEvents st.trace := by
    rw [progressEvents_append, htr, progressEvents_append, hpd]
    simp [progressEvents]
  refine ⟨{ st1 with trace := st1.trace ++
      [Event.failureCb SenderError.maxResignAttemptsReached i
        st1.successfulItems
        (jsIndex sets ((st1.successfulItems : Int) - 1))] }, d,
    hpi, hsc, ?_, by simpa using hlen, hsubi, hnf, hptr, ?_, ?_⟩
  · show st1.trace ++ _ = _
    rw [htr, hsc]
  · intro hinv
    show st1.successfulItems =
      (progressEvents (st1.trace ++
        [Event.failureCb SenderError.maxResignAttemptsReached i
          st1.successfulItems
          (jsIndex sets ((st1.successfulItems : Int) - 1))])).length
    rw [hptr, hsc, hinv]
  · intro hinv ev hev
    have hev2 : ev ∈ progressEvents (st1.trace ++
        [Event.failureCb SenderError.maxResignAttemptsReached i
          st1.successfulItems
          (jsIndex sets ((st1.successfulItems : Int) - 1))]) := hev
    rw [hptr] at hev2
    exact hinv ev hev2

theorem anchorTogether_trans {env : Env} {st1 st2 st3 : SendState}
    (h12 : anchorTogether env st1 st2) (h23 : anchorTogether env st2 st3) :
    anchorTogether env st1 st3 := by
  obtain ⟨hf12, hc12⟩ := h12
  obtain ⟨hf23, hc23⟩ := h23
  refine ⟨le_trans hf12 hf23, ?_⟩
  rcases hc23 with ⟨hs, hb⟩ | ⟨k, hk1, hk2, hk3, hk4⟩
  · rcases hc12 with ⟨hs2, hb2⟩ | ⟨k, hk1, hk2, hk3, hk4⟩
    · exact Or.inl ⟨hs.trans hs2, hb.trans hb2⟩
    · exact Or.inr ⟨k, hk1, lt_of_lt_of_le hk2 hf23, hs.trans hk3, hb.trans hk4⟩
  · exact Or.inr ⟨k, le_trans hf12 hk1, hk2, hk3, hk4⟩

theorem attemptOnce_anchor {cfg : Config} {env : Env} {pk : Nat}
    {sets : List InstructionSet} {i rn : Nat} {tx : Transaction}
    {st : SendState} :
    anchorTogether env st (stepState (attemptOnce cfg env pk sets i rn tx st)) := by
  rcases h : env.submits st.submitCount with c | t
  · by_cases hd : st.slot + 150 ≤ c
    · by_cases hn : i + 1 < st.signedTXs.length
      · rw [attemptOnce_accept_drift_rebuild h hd hn]
        exact ⟨Nat.le_succ _,
          Or.inr ⟨st.fetchCount, Nat.le_refl _, Nat.lt_succ_self _, rfl, rfl⟩⟩
      · rw [attemptOnce_accept_drift_last h hd hn]
        exact ⟨Nat.le_refl _, Or.inl ⟨rfl, rfl⟩⟩
    · rw [attemptOnce_accept_nodrift h (by omega)]
      exact ⟨Nat.le_refl _, Or.inl ⟨rfl, rfl⟩⟩
  · by_cases ht : t = "timeout"
    · subst ht
      by_cases hb : cfg.maxSigningAttempts ≤ rn + 1
      · rw [attemptOnce_timeout_bail h hb]
        exact ⟨Nat.le_refl _, Or.inl ⟨rfl, rfl⟩⟩
      · by_cases hdr : st.slot + 150 ≤ env.slotQueries st.slotQueryCount
        · rw [attemptOnce_timeout_retry_drift h (by omega) hdr]
          exact ⟨Nat.le_succ _,
            Or.inr ⟨st.fetchCount, Nat.le_refl _, Nat.lt_succ_self _, rfl, rfl⟩⟩
        · rw [attemptOnce_timeout_retry_nodrift h (by omega) hdr]
          exact ⟨Nat.le_refl _, Or.inl ⟨rfl, rfl⟩⟩
    · rw [attemptOnce_fatal h ht]
      exact ⟨Nat.le_refl _, Or.inl ⟨rfl, rfl⟩⟩

theorem attemptLoop_anchor {cfg : Config} {env : Env} {pk : Nat}
    {sets : List InstructionSet} {i : Nat} :
    ∀ (fuel rn : Nat) (tx : Transaction) (st : SendState),
      anchorTogether env st (attemptLoop cfg env pk sets i fuel rn tx st).1 := by
  intro fuel
  induction fuel with
  | zero =>
      intro rn tx st
      have ha := @attemptOnce_anchor cfg env pk sets i rn tx st
      cases hr : attemptOnce cfg env pk sets i rn tx st with
      | done st1 e =>
          rw [attemptLoop_done hr]
          rw [hr] at ha
          exact ha
      | again st1 rn1 tx1 =>
          rw [attemptLoop_again_zero hr]
          rw [hr] at ha
          exact ha
  | succ fuel ih =>
      intro rn tx st
      have ha := @attemptOnce_anchor cfg env pk sets i rn tx st
      cases hr : attemptOnce cfg env pk sets i rn tx st with
      | done st1 e =>
          rw [attemptLoop_done hr]
          rw [hr] at ha
          exact ha
      | again st1 rn1 tx1 =>
          rw [attemptLoop_again_succ hr]
          rw [hr] at ha
          exact anchorTogether_trans ha (ih rn1 tx1 st1)

theorem processIndex_anchor {cfg : Config} {env : Env} {pk : Nat}
    {sets : List InstructionSet} {i : Nat} {st : SendState} :
    anchorTogether env st (processIndex cfg env pk sets i st).1 := by
  have ha := @attemptLoop_anchor cfg env pk sets i cfg.maxSigningAttempts 0
    (st.signedTXs.getD i dummyTx) st
  cases hl : attemptLoop cfg env pk sets i cfg.maxSigningAttempts 0
      (st.signedTXs.getD i dummyTx) st with
  | mk st1 oe =>
      rw [hl] at ha
      cases oe with
      | none =>
          rw [processIndex_of_none hl]
          exact ha
      | some e =>
          rw [processIndex_of_some hl]
          exact ha

/-- Witness for C3: index 0 with every submission timing out under a
three-attempt configuration. -/
theorem c3_timeout_retries_then_max_resign_witness :
    1 ≤ wcfgAbort.maxSigningAttempts ∧
    (∀ k, k < wcfgAbort.maxSigningAttempts →
      wenvTimeout.submits (wst.submitCount + k) = TxResult.failed "timeout") ∧
    TimeoutExhaustsAttempts wcfgAbort wenvTimeout 5 wsets 0 wst :=
  ⟨by decide, fun k hk => rfl,
   c3_timeout_retries_then_max_resign (by decide) (fun k hk => rfl)⟩

/-- C5: whenever an index `i` reaches a terminal failure, the failure
callback is invoked exactly once for that failure — the only failure event in
the trace extension is its last entry — with, in order, the error, the
current index `i`, the `successfulItems` count so far, and the operation
group at position `successfulItems - 1` of the supplied list. -/
theorem c5_failure_callback_args {cfg : Config} {env : Env} {pk : Nat}
    {sets : List InstructionSet} {i : Nat} {st st1 : SendState} {e : SenderError}
    (h : processIndex cfg env pk sets i st = (st1, some e)) :
    ∃ d, st1.trace = st.trace ++ d ++
        [Event.failureCb e i st.successfulItems
          (jsIndex sets ((st.successfulItems : Int) - 1))] ∧
      ∀ ev ∈ d, isFailureEvent ev = false :=
  (processIndex_err h).2

/-- Witness for C5: a fatal `misc-error` submission makes `processIndex`
report a terminal failure, and the failure event carries the call-site
argument order. -/
theorem c5_failure_callback_args_witness :
    (processIndex wcfgAbort wenvMisc 5 wsets 0 wst =
      ((processIndex wcfgAbort wenvMisc 5 wsets 0 wst).1,
       some (SenderError.txErr "misc-error"))) ∧
    (∃ d, (processIndex wcfgAbort wenvMisc 5 wsets 0 wst).1.trace =
        wst.trace ++ d ++
        [Event.failureCb (SenderError.txErr "misc-error") 0 wst.successfulItems
          (jsIndex wsets ((wst.successfulItems : Int) - 1))] ∧
      ∀ ev ∈ d, isFailureEvent ev = false) :=
  ⟨by decide,
   @c5_failure_callback_args wcfgAbort wenvMisc 5 wsets 0 wst
     ((processIndex wcfgAbort wenvMisc 5 wsets 0 wst).1)
     (SenderError.txErr "misc-error") (by decide)⟩

/-- C10: if an index reaches a terminal failure while `successfulItems` is
still 0, the fourth argument handed to the failure callback is the element at
position `-1` of the operation-group list, which is `undefined` (`none`),
not an actual operation group. -/
theorem c10_failure_group_undefined {cfg : Config} {env : Env} {pk : Nat}
    {sets : List InstructionSet} {i : Nat} {st st1 : SendState} {e : SenderError}
    (h : processIndex cfg env pk sets i st = (st1, some e))
    (h0 : st.successfulItems = 0) :
    (∃ d, st1.trace = st.trace ++ d ++
        [Event.failureCb e i 0 (jsIndex sets (-1))] ∧
      ∀ ev ∈ d, isFailureEvent ev = false) ∧
    jsIndex sets (-1) = (none : Option InstructionSet) := by
  obtain ⟨hsc, d, htr, hnf⟩ := processIndex_err h
  rw [h0] at htr
  refine ⟨⟨d, ?_, hnf⟩, by simp [jsIndex]⟩
  simpa using htr

/-- Witness for C10: a failure on the very first index passes `undefined` as
the failing group. -/
theorem c10_failure_group_undefined_witness :
    (processIndex wcfgAbort wenvMisc 5 wsets 0 wst =
      ((processIndex wcfgAbort wenvMisc 5 wsets 0 wst).1,
       some (SenderError.txErr "misc-error"))) ∧
    wst.successfulItems = 0 ∧
    ((∃ d, (processIndex wcfgAbort wenvMisc 5 wsets 0 wst).1.trace =
        wst.trace ++ d ++
        [Event.failureCb (SenderError.txErr "misc-error") 0 0 (jsIndex wsets (-1))] ∧
      ∀ ev ∈ d, isFailureEvent ev = false) ∧
    jsIndex wsets (-1) = (none : Option InstructionSet)) :=
  ⟨by decide, by decide,
   @c10_failure_group_undefined wcfgAbort wenvMisc 5 wsets 0 wst
     ((processIndex wcfgAbort wenvMisc 5 wsets 0 wst).1)
     (SenderError.txErr "misc-error") (by decide) (by decide)⟩

/-- C7: with `abortOnFailure = true`, once index `i` reaches a terminal
failure the loop returns that state unchanged — so no progress or failure
callback fires for any later index and no later index is submitted; with
`abortOnFailure = false` the loop continues exactly with index `i + 1`. -/
theorem c7_abort_policy {cfg : Config} {env : Env} {pk : Nat}
    {sets : List InstructionSet} {fuel i : Nat} {st st1 : SendState}
    {e : SenderError}
    (h : processIndex cfg env pk sets i st = (st1, some e))
    (hi : i < st.signedTXs.length) :
    (cfg.abortOnFailure = true →
      sendLoop cfg env pk sets (fuel + 1) i st = st1) ∧
    (cfg.abortOnFailure = false →
      sendLoop cfg env pk sets (fuel + 1) i st =
        sendLoop cfg env pk sets fuel (i + 1) st1) := by
  refine ⟨fun hab => ?_, fun hab => ?_⟩ <;>
    rw [sendLoop_step_some hi h, hab] <;> simp

/-- Witness for C7: a fatal failure at index 0 of a two-item batch. -/
theorem c7_abort_policy_witness :
    (processIndex wcfgAbort wenvMisc 5 wsets 0 wst =
      ((processIndex wcfgAbort wenvMisc 5 wsets 0 wst).1,
       some (SenderError.txErr "misc-error"))) ∧
    0 < wst.signedTXs.length ∧
    ((wcfgAbort.abortOnFailure = true →
      sendLoop wcfgAbort wenvMisc 5 wsets (1 + 1) 0 wst =
        (processIndex wcfgAbort wenvMisc 5 wsets 0 wst).1) ∧
    (wcfgAbort.abortOnFailure = false →
      sendLoop wcfgAbort wenvMisc 5 wsets (1 + 1) 0 wst =
        sendLoop wcfgAbort wenvMisc 5 wsets 1 (0 + 1)
          (processIndex wcfgAbort wenvMisc 5 wsets 0 wst).1)) :=
  ⟨by decide, by decide,
   @c7_abort_policy wcfgAbort wenvMisc 5 wsets 1 0 wst
     ((processIndex wcfgAbort wenvMisc 5 wsets 0 wst).1)
     (SenderError.txErr "misc-error") (by decide) (by decide)⟩

/-- C6 (code bug): at the failing input `bugSets` — whose first group has an
empty operation list — the rebuild of the suffix starting at index 1 does not
preserve the operation content of the transaction previously at index 1: the
original transaction at index 1 carried operation 2 (built from the filtered
list), while the rebuilt one carries operation 1 (read from the unfiltered
list), duplicating the already-submitted content. -/
theorem c6_rebuild_misindexes_unfiltered_list :
    ((rebuildAndSign 5 bugSets bugInitialTXs 1 11).getD 1 dummyTx).instructions
      = [⟨1⟩] ∧
    (bugInitialTXs.getD 1 dummyTx).instructions = [⟨2⟩] ∧
    ((rebuildAndSign 5 bugSets bugInitialTXs 1 11).getD 1 dummyTx).instructions
      ≠ (bugInitialTXs.getD 1 dummyTx).instructions := by
  refine ⟨by decide, by decide, by decide⟩

/-- C4 (counterexample): a supplied batch whose only group has an empty
operation list is not rejected with the empty-batch error, and the network
anchor fetch is invoked: the `instructionSets?.length` guard only catches the
empty list, and the empty-group filter runs after the fetch. -/
theorem c4_counterexample :
    send (some 5) [⟨[], []⟩] ⟨3, true⟩ wenvAccept ≠
      SendOutcome.noInstructionSets ∧
    Event.fetchAnchor 0 7 ∈
      (finalStateD (send (some 5) [⟨[], []⟩] ⟨3, true⟩ wenvAccept)).trace := by
  refine ⟨by decide, by decide⟩

/-- C4 (amended): an empty batch fails fast with the empty-batch error before
any collaborator is invoked; a non-empty batch whose groups all have empty
operation lists is not rejected — `send` fetches the anchor, batch-signs an
empty list, submits nothing, and completes with zero successful items. -/
theorem c4_empty_batch_precondition :
    (∀ (cfg : Config) (env : Env) (pk : Nat),
      send (some pk) [] cfg env = SendOutcome.noInstructionSets) ∧
    (∀ (cfg : Config) (env : Env) (pk : Nat) (sets : List InstructionSet),
      sets ≠ [] → (∀ s ∈ sets, s.instructions = []) →
      send (some pk) sets cfg env = SendOutcome.completed
        { signedTXs := [], slot := (env.fetches 0).1,
          blockhash := (env.fetches 0).2, successfulItems := 0,
          fetchCount := 1, slotQueryCount := 0, submitCount := 0,
          trace := [Event.fetchAnchor (env.fetches 0).1 (env.fetches 0).2,
                    Event.signBatch []] }) := by
  constructor
  · intro cfg env pk
    simp [send]
  · intro cfg env pk sets h1 h2
    have hfil : sets.filter (fun s => ¬ s.instructions.isEmpty) = [] := by
      rw [List.filter_eq_nil_iff]
      intro s hs
      simp [h2 s hs]
    have hne : sets.isEmpty = false := by
      cases sets with
      | nil => exact absurd rfl h1
      | cons a l => rfl
    simp only [send, hne, Bool.false_eq_true, if_false, hfil, List.map_nil]
    rw [sendLoop_halt (by simp)]

/-- C1: when the submission of index `i` is accepted with a reported slot at
least 150 past the current baseline and a later index exists, the engine —
before any submission attempt for index `i + 1` — fetches one fresh
(slot, blockhash) pair, updates the baseline to it, and rebuilds and re-signs
every index greater than `i`; the next submission for `i + 1` is of the
rebuilt transaction, which carries the fresh anchor, never the old one. -/
theorem c1_reanchor_after_accept_drift {cfg : Config} {env : Env} {pk : Nat}
    {sets : List InstructionSet} {i : Nat} {st : SendState} {c : Nat}
    (h1 : env.submits st.submitCount = TxResult.accepted c)
    (h2 : st.slot + 150 ≤ c)
    (h3 : i + 1 < st.signedTXs.length)
    (h4 : st.signedTXs.length ≤ sets.length) :
    ReanchorsAfterAcceptDrift cfg env pk sets i st c := by
  have hpi := processIndex_of_none (attemptLoop_done
    (@attemptOnce_accept_drift_rebuild cfg env pk sets i 0
      (st.signedTXs.getD i dummyTx) st c h1 h2 h3))
  refine ⟨hpi, ?_, ?_⟩
  · intro j hj1 hj2
    rw [rebuildAndSign_getD_ge hj1 hj2 (by omega) h4]
    exact ⟨rfl, rfl⟩
  · obtain ⟨d, hd⟩ := @processIndex_trace_head cfg env pk sets (i + 1)
      (processIndex cfg env pk sets i st).1
    refine ⟨d, ?_⟩
    rw [hd]
    have h5 : (processIndex cfg env pk sets i st).1 =
        { st with
            signedTXs := rebuildAndSign pk sets st.signedTXs (i + 1)
              (env.fetches st.fetchCount).2
            slot := (env.fetches st.fetchCount).1
            blockhash := (env.fetches st.fetchCount).2
            successfulItems := st.successfulItems + 1
            fetchCount := st.fetchCount + 1
            submitCount := st.submitCount + 1
            trace := st.trace ++
              [Event.submitTx i (st.signedTXs.getD i dummyTx)
                 (TxResult.accepted c),
               Event.progressCb i,
               Event.fetchAnchor (env.fetches st.fetchCount).1
                 (env.fetches st.fetchCount).2,
               Event.reSignCb 0 (i + 1),
               Event.signBatch ((rebuildAndSign pk sets st.signedTXs (i + 1)
                 (env.fetches st.fetchCount).2).drop (i + 1))] } := by
      rw [hpi]
    rw [h5]

/-- Witness for C1: index 0 of a two-item batch accepted at slot 200 against
baseline 0. -/
theorem c1_reanchor_after_accept_drift_witness :
    wenvDrift.submits wst.submitCount = TxResult.accepted 200 ∧
    wst.slot + 150 ≤ 200 ∧
    0 + 1 < wst.signedTXs.length ∧
    wst.signedTXs.length ≤ wsets.length ∧
    ReanchorsAfterAcceptDrift wcfgAbort wenvDrift 5 wsets 0 wst 200 :=
  ⟨by decide, by decide, by decide, by decide,
   c1_reanchor_after_accept_drift (by decide) (by decide) (by decide) (by decide)⟩

/-- C2: on a transient timeout for index `i` below the attempt bound, the
engine re-checks the slot before retrying; on drift of 150 or more past the
baseline it fetches one fresh (slot, blockhash) pair, rebuilds and re-signs
the suffix starting at `i` itself, fires the re-sign callback with the
current attempt number, and retries with the freshly signed transaction for
`i`; without drift it retries the same transaction unchanged. -/
theorem c2_retry_recheck_and_resign {cfg : Config} {env : Env} {pk : Nat}
    {sets : List InstructionSet} {i fuel rn : Nat} {tx : Transaction}
    {st : SendState}
    (h1 : env.submits st.submitCount = TxResult.failed "timeout")
    (h2 : rn + 1 < cfg.maxSigningAttempts)
    (h3 : i < st.signedTXs.length)
    (h4 : st.signedTXs.length ≤ sets.length) :
    RetryReanchorsOnDrift cfg env pk sets i fuel rn tx st := by
  refine ⟨fun hdr => ?_, fun hdr => ?_⟩
  · have hgd := @rebuildAndSign_getD_ge pk sets st.signedTXs i
      (env.fetches st.fetchCount).2 i (Nat.le_refl i) (h3.trans_le h4)
      (Nat.le_of_lt h3) h4
    have hhd : ((rebuildAndSign pk sets st.signedTXs i
        (env.fetches st.fetchCount).2).drop i).headD tx =
        (rebuildAndSign pk sets st.signedTXs i
          (env.fetches st.fetchCount).2).getD i dummyTx := by
      rw [rebuildAndSign_headD_drop tx (h3.trans_le h4) (Nat.le_of_lt h3) h4, hgd]
    refine ⟨?_, by rw [hgd]; rfl, by rw [hgd]; rfl⟩
    rw [attemptLoop_again_succ
      (@attemptOnce_timeout_retry_drift cfg env pk sets i rn tx st h1 h2 hdr), hhd]
  · exact attemptLoop_again_succ
      (@attemptOnce_timeout_retry_nodrift cfg env pk sets i rn tx st h1 h2 hdr)

/-- Witness for C2: a timed-out first attempt for index 0 with the re-checked
slot at 200 against baseline 0. -/
theorem c2_retry_recheck_and_resign_witness :
    wenvRetryDrift.submits wst.submitCount = TxResult.failed "timeout" ∧
    0 + 1 < wcfgAbort.maxSigningAttempts ∧
    0 < wst.signedTXs.length ∧
    wst.signedTXs.length ≤ wsets.length ∧
    RetryReanchorsOnDrift wcfgAbort wenvRetryDrift 5 wsets 0 1 0 wtxA wst :=
  ⟨by decide, by decide, by decide, by decide,
   c2_retry_recheck_and_resign (by decide) (by decide) (by decide) (by decide)⟩

/-- C9: a rebuild-and-resign from index `idx` leaves every transaction below
`idx` — already submitted or confirmed — exactly unchanged, and the engine
only ever changes its baseline slot and current blockhash together, both
taken from one and the same `getSlotAndCurrentBlockHash` query. -/
theorem c9_rebuild_frame_and_paired_fetch :
    (∀ (pk : Nat) (sets : List InstructionSet) (txs : List Transaction)
      (idx bh j : Nat), j < idx → idx ≤ txs.length →
      (rebuildAndSign pk sets txs idx bh).getD j dummyTx = txs.getD j dummyTx) ∧
    (∀ (cfg : Config) (env : Env) (pk : Nat) (sets : List InstructionSet)
      (i : Nat) (st : SendState),
      anchorTogether env st (processIndex cfg env pk sets i st).1) := by
  constructor
  · intro pk sets txs idx bh j hj h1
    rw [List.getD_eq_getElem?_getD, List.getD_eq_getElem?_getD,
      rebuildAndSign_getElem?_lt hj h1]
  · intro cfg env pk sets i st
    exact processIndex_anchor

/-- Witness for C9: rebuilding from index 1 of the two-transaction witness
state leaves index 0 untouched, and a processed index keeps (slot, blockhash)
paired. -/
theorem c9_rebuild_frame_and_paired_fetch_witness :
    (0 : Nat) < 1 ∧ 1 ≤ wst.signedTXs.length ∧
    (rebuildAndSign 5 wsets wst.signedTXs 1 11).getD 0 dummyTx =
      wst.signedTXs.getD 0 dummyTx ∧
    anchorTogether wenvDrift wst (processIndex wcfgAbort wenvDrift 5 wsets 0 wst).1 :=
  ⟨by decide, by decide,
   c9_rebuild_frame_and_paired_fetch.1 5 wsets wst.signedTXs 1 11 0
     (by decide) (by decide),
   c9_rebuild_frame_and_paired_fetch.2 wcfgAbort wenvDrift 5 wsets 0 wst⟩

theorem sendLoop_all_accept {cfg : Config} {env : Env} {pk : Nat}
    {sets : List InstructionSet} {b : Nat}
    (hacc : ∀ k, ∃ c, env.submits k = TxResult.accepted c ∧ c < b + 150) :
    ∀ (fuel i : Nat) (st : SendState), st.slot = b →
      st.signedTXs.length ≤ i + fuel →
      (sendLoop cfg env pk sets fuel i st).successfulItems =
        st.successfulItems + (st.signedTXs.length - i) ∧
      progressEvents (sendLoop cfg env pk sets fuel i st).trace =
        progressEvents st.trace ++
          (List.range' i (st.signedTXs.length - i)).map Event.progressCb := by
  intro fuel
  induction fuel with
  | zero =>
      intro i st hb hlen
      have h0 : st.signedTXs.length - i = 0 := by omega
      rw [sendLoop, h0]
      simp
  | succ fuel ih =>
      intro i st hb hlen
      by_cases hi : i < st.signedTXs.length
      · obtain ⟨c, hc, hlt⟩ := hacc st.submitCount
        have hpi := processIndex_of_none (attemptLoop_done
          (@attemptOnce_accept_nodrift cfg env pk sets i 0
            (st.signedTXs.getD i dummyTx) st c hc (by omega)))
        rw [sendLoop_step_none hi hpi]
        obtain ⟨hsc, hpr⟩ := ih (i + 1)
          { st with submitCount := st.submitCount + 1
                    successfulItems := st.successfulItems + 1
                    trace := st.trace ++
                      [Event.submitTx i (st.signedTXs.getD i dummyTx)
                         (TxResult.accepted c),
                       Event.progressCb i] }
          hb (by show st.signedTXs.length ≤ i + 1 + fuel; omega)
        constructor
        · rw [hsc]
          show st.successfulItems + 1 + (st.signedTXs.length - (i + 1)) =
            st.successfulItems + (st.signedTXs.length - i)
          omega
        · rw [hpr]
          show progressEvents (st.trace ++
            [Event.submitTx i (st.signedTXs.getD i dummyTx)
               (TxResult.accepted c),
             Event.progressCb i]) ++
              (List.range' (i + 1) (st.signedTXs.length - (i + 1))).map
                Event.progressCb =
            progressEvents st.trace ++
              (List.range' i (st.signedTXs.length - i)).map Event.progressCb
          rw [progressEvents_append]
          have h1 : progressEvents
              [Event.submitTx i (st.signedTXs.getD i dummyTx)
                 (TxResult.accepted c),
               Event.progressCb i] = [Event.progressCb i] := rfl
          have h2 : st.signedTXs.length - i =
              (st.signedTXs.length - (i + 1)) + 1 := by omega
          rw [h1, h2, List.range'_succ]
          simp
      · rw [sendLoop_halt (by omega)]
        have h0 : st.signedTXs.length - i = 0 := by omega
        rw [h0]
        simp

/-- C8 (amended): for a batch of `N` groups, each with a non-empty operation
list, in which every submission is accepted without reaching the drift
threshold, the progress callback fires exactly `N` times, in strict index
order `0..N-1`, and `successfulItems` equals `N` when `send` returns. -/
theorem c8_all_success_progress_in_order {cfg : Config} {env : Env} {pk : Nat}
    {sets : List InstructionSet}
    (hne : sets ≠ [])
    (hall : ∀ s ∈ sets, s.instructions ≠ [])
    (hacc : ∀ k, ∃ c, env.submits k = TxResult.accepted c ∧
      c < (env.fetches 0).1 + 150) :
    ∃ stf, send (some pk) sets cfg env = SendOutcome.completed stf ∧
      stf.successfulItems = sets.length ∧
      progressEvents stf.trace = (List.range sets.length).map Event.progressCb := by
  have hisEmpty : sets.isEmpty = false := by
    cases sets with
    | nil => exact absurd rfl hne
    | cons a l => rfl
  have hfil : sets.filter (fun s => ¬ s.instructions.isEmpty) = sets := by
    rw [List.filter_eq_self]
    intro s hs
    simpa using hall s hs
  have hsend : send (some pk) sets cfg env = SendOutcome.completed
      (sendLoop cfg env pk sets sets.length 0
        { signedTXs := (sets.map (buildTx pk (env.fetches 0).2)).map walletSign
          slot := (env.fetches 0).1
          blockhash := (env.fetches 0).2
          successfulItems := 0
          fetchCount := 1
          slotQueryCount := 0
          submitCount := 0
          trace := [Event.fetchAnchor (env.fetches 0).1 (env.fetches 0).2,
                    Event.signBatch
                      ((sets.map (buildTx pk (env.fetches 0).2)).map
                        walletSign)] }) := by
    simp only [send, hisEmpty, Bool.false_eq_true, if_false, hfil]
  obtain ⟨hsc, hpr⟩ := sendLoop_all_accept hacc sets.length 0
    { signedTXs := (sets.map (buildTx pk (env.fetches 0).2)).map walletSign
      slot := (env.fetches 0).1
      blockhash := (env.fetches 0).2
      successfulItems := 0
      fetchCount := 1
      slotQueryCount := 0
      submitCount := 0
      trace := [Event.fetchAnchor (env.fetches 0).1 (env.fetches 0).2,
                Event.signBatch
                  ((sets.map (buildTx pk (env.fetches 0).2)).map walletSign)] }
    rfl (by simp)
  refine ⟨_, hsend, ?_, ?_⟩
  · rw [hsc]
    simp
  · rw [hpr]
    show progressEvents [Event.fetchAnchor (env.fetches 0).1 (env.fetches 0).2,
        Event.signBatch ((sets.map (buildTx pk (env.fetches 0).2)).map
          walletSign)] ++ _ = _
    have h1 : progressEvents [Event.fetchAnchor (env.fetches 0).1
        (env.fetches 0).2,
        Event.signBatch ((sets.map (buildTx pk (env.fetches 0).2)).map
          walletSign)] = [] := rfl
    rw [h1, List.range_eq_range']
    simp

/-- Witness for C8 (amended): a two-item batch with every submission accepted
at slot 0. -/
theorem c8_all_success_progress_in_order_witness :
    wsets ≠ [] ∧ (∀ s ∈ wsets, s.instructions ≠ []) ∧
    (∀ k, ∃ c, wenvAccept.submits k = TxResult.accepted c ∧
      c < (wenvAccept.fetches 0).1 + 150) ∧
    (∃ stf, send (some 5) wsets wcfgAbort wenvAccept =
        SendOutcome.completed stf ∧
      stf.successfulItems = wsets.length ∧
      progressEvents stf.trace =
        (List.range wsets.length).map Event.progressCb) :=
  ⟨by decide, by decide, fun k => ⟨0, rfl, by omega⟩,
   c8_all_success_progress_in_order (by decide) (by decide)
     (fun k => ⟨0, rfl, by omega⟩)⟩

/-- C8 (counterexample): a batch of two supplied groups with an empty first
group, no failures and no drift: `send` completes with one progress event and
one successful item, not two — the claim as stated over all supplied batches
fails, since empty groups yield no transaction. -/
theorem c8_counterexample :
    (finalStateD (send (some 5) [⟨[], []⟩, ⟨[], [⟨1⟩]⟩] ⟨3, true⟩
      wenvAccept)).successfulItems ≠ 2 ∧
    progressEvents (finalStateD (send (some 5) [⟨[], []⟩, ⟨[], [⟨1⟩]⟩]
      ⟨3, true⟩ wenvAccept)).trace ≠ (List.range 2).map Event.progressCb := by
  refine ⟨by decide, by decide⟩

/-- Witness for C4 (amended): the empty batch is rejected; the all-empty
batch completes having fetched the anchor. -/
theorem c4_empty_batch_precondition_witness :
    send (some 5) [] ⟨3, true⟩ wenvAccept = SendOutcome.noInstructionSets ∧
    ([⟨[], []⟩] ≠ ([] : List InstructionSet)) ∧
    send (some 5) [⟨[], []⟩] ⟨3, true⟩ wenvAccept = SendOutcome.completed
      { signedTXs := [], slot := 0, blockhash := 7, successfulItems := 0,
        fetchCount := 1, slotQueryCount := 0, submitCount := 0,
        trace := [Event.fetchAnchor 0 7, Event.signBatch []] } :=
  ⟨c4_empty_batch_precondition.1 ⟨3, true⟩ wenvAccept 5, by decide,
   c4_empty_batch_precondition.2 ⟨3, true⟩ wenvAccept 5 [⟨[], []⟩]
     (by decide) (by decide)⟩

end SafecoinSender
